import Mathlib

/-!
Shallow embedding of the SyncDisBoi playlist-synchronization core:
the canonical music data model, the YtMusic rate-limit/backoff policy,
the continuation-token pagination aggregator, the per-platform
search/add/list operations and the sync orchestrator of src/sync.rs,
together with proofs of the behavioural properties of these functions.
-/

namespace SyncDisBoi

/-! ## Canonical music model

Modelled from the spec: the crate's `music_api` module is not among the
given sources; the spec's data-model section describes Song (native id,
optional secondary id, optional ISRC, name, artists, optional album,
duration in milliseconds, source platform tag) and Playlist (id, name,
ordered songs, optional owner). Cross-platform song equivalence
(`Song::compare`, also used as the `PartialEq` behind `Vec::contains`)
is likewise not in the sources; it is kept abstract as a boolean
parameter `cmp` throughout, with the spec-guaranteed properties
(reflexivity) taken as hypotheses where needed. -/

inductive MusicApiType
  | Spotify
  | YtMusic
  | Tidal
  | Plex
deriving DecidableEq, Repr

structure Artist where
  name : String
  id : Option String
deriving DecidableEq, Repr

structure Album where
  name : String
  id : Option String
deriving DecidableEq, Repr

structure Song where
  source : MusicApiType
  id : String
  sid : Option String
  isrc : Option String
  name : String
  artists : List Artist
  album : Option Album
  durationMs : Nat
deriving DecidableEq, Repr

structure Playlist where
  id : String
  name : String
  songs : List Song
  owner : Option String
deriving DecidableEq, Repr

/-- Rust `Vec::<Song>::contains(&x)` tests `elem == x` for some element;
with the `PartialEq` of `Song` abstracted as `cmp`, this is `any`. -/
def list_contains (cmp : Song → Song → Bool) (l : List Song) (x : Song) : Bool :=
  l.any (fun e => cmp e x)

/-! ## Rate-limit / backoff policy (src/yt_music/mod.rs) -/

/-- `YtMusicApi::MAX_RETRIES` (yt_music/mod.rs line 87): 6 total attempts. -/
def MAX_RETRIES : Nat := 5

/-- `YtMusicApi::MAX_BACKOFF_SECS` (yt_music/mod.rs line 88). -/
def MAX_BACKOFF_SECS : Nat := 900

/-- `RateLimitAction` (yt_music/mod.rs lines 66-73). -/
inductive RateLimitAction
  | Retry (backoffSecs : Nat)
  | Continue
  | MaxRetriesExceeded
deriving DecidableEq, Repr

/-- `reqwest::StatusCode::is_client_error`: 400 ≤ status < 500. -/
def is_client_error (status : Nat) : Bool :=
  400 ≤ status && status < 500

/-- Rust `str::contains(pat)` for a literal pattern. -/
def contains_sub (text pat : String) : Bool :=
  (text.splitOn pat).length > 1

/-- `YtMusicApi::handle_rate_limit_with_retry` (yt_music/mod.rs lines 694-722):
429 or a client error whose body mentions automated queries is rate limiting;
below `MAX_RETRIES` the action is a retry after `min(3^(retry_count+1), 900)`
seconds, otherwise the maximum is exceeded. -/
def handle_rate_limit_with_retry (status : Nat) (text : String)
    (retry_count : Nat) : RateLimitAction :=
  let is_rate_limited :=
    status == 429 || (is_client_error status && contains_sub text "automated queries")
  if !is_rate_limited then .Continue
  else if retry_count ≥ MAX_RETRIES then .MaxRetriesExceeded
  else .Retry (min (3 ^ (retry_count + 1)) MAX_BACKOFF_SECS)

/-- Outcome of the `make_request` retry loop, restricted to its rate-limit
handling (yt_music/mod.rs lines 793-840). -/
inductive RequestOutcome
  | Done (status : Nat) (text : String)
  | Exhausted (status : Nat) (text : String)
  | OutOfResponses
deriving DecidableEq, Repr

/-- The retry loop of `make_request` (yt_music/mod.rs lines 793-840) driven by a
list of (status, body) responses: a `Retry` action sleeps for the backoff and
retries with `retry_count + 1`; `MaxRetriesExceeded` aborts with a terminal
error carrying the diagnostic payload; otherwise normal processing continues.
Returns the backoff sleeps performed and the outcome. -/
def request_retry_loop : List (Nat × String) → Nat → List Nat × RequestOutcome
  | [], _ => ([], .OutOfResponses)
  | (status, text) :: rest, rc =>
    match handle_rate_limit_with_retry status text rc with
    | .Retry b =>
      let r := request_retry_loop rest (rc + 1)
      (b :: r.1, r.2)
    | .MaxRetriesExceeded => ([], .Exhausted status text)
    | .Continue => ([], .Done status text)

/-! ## Duration parsing (src/yt_music/response.rs lines 16-23) -/

/-- Result of running a Rust function that can return `Err` via `?` or panic. -/
inductive RustOutcome (α : Type)
  | ok (v : α)
  | error
  | panicked
deriving DecidableEq, Repr

/-- The `multipliers` array of `parse_duration`. -/
def multipliers : List Nat := [1, 60, 3600]

/-- Splitting a character sequence on the colon (`cur` holds the reversed
characters of the part being read). -/
def split_colon_go : List Char → List Char → List (List Char)
  | [], cur => [cur.reverse]
  | ch :: rest, cur =>
    if ch = ':' then cur.reverse :: split_colon_go rest []
    else split_colon_go rest (ch :: cur)

/-- Rust `duration_str.rsplit(':')`: the colon-separated parts of the string,
rightmost part first. -/
def rsplit_colon (s : String) : List (List Char) :=
  (split_colon_go s.toList []).reverse

/-- Rust `str::parse::<usize>`: every character must be a digit and at least
one must be present (the optional leading sign is not modelled). -/
def parse_usize (cs : List Char) : Option Nat :=
  if cs ≠ [] ∧ cs.all Char.isDigit then
    some (cs.foldl (fun acc c => acc * 10 + (c.toNat - 48)) 0)
  else none

/-- The loop of `parse_duration`: for each part (rightmost first) parse it
(`?` propagates a parse failure before the array is indexed) and add
`part * multipliers[i]`; `multipliers[i]` panics when `i` is out of
bounds. -/
def parse_duration_go : List (List Char) → Nat → Nat → RustOutcome Nat
  | [], _, acc => .ok acc
  | p :: rest, i, acc =>
    match parse_usize p with
    | none => .error
    | some v =>
      match multipliers.get? i with
      | none => .panicked
      | some m => parse_duration_go rest (i + 1) (acc + v * m)

/-- `parse_duration` (yt_music/response.rs lines 16-23): sum the
colon-separated parts right-to-left against `multipliers`, then convert the
seconds to milliseconds. -/
def parse_duration (s : String) : RustOutcome Nat :=
  match parse_duration_go (rsplit_colon s) 0 0 with
  | .ok seconds => .ok (seconds * 1000)
  | .error => .error
  | .panicked => .panicked

/-! ## Playlist deduplication inside get_playlists_info
(yt_music/mod.rs lines 1107-1125 and tidal/mod.rs lines 321-339,
the identical loop in both) -/

/-- The deduplication loop of `get_playlists_info`, with the `seen_ids`
map modelled as the list of ids inserted so far: a playlist whose id was
already seen is discarded with a warning, otherwise it is recorded and kept. -/
def dedup_playlists_go : List Playlist → List String → List Playlist
  | [], _ => []
  | p :: rest, seen =>
    if p.id ∈ seen then dedup_playlists_go rest seen
    else p :: dedup_playlists_go rest (p.id :: seen)

/-- Deduplicate the playlists returned by the platform by id, keeping the
first occurrence (yt_music/mod.rs lines 1107-1125, tidal/mod.rs 321-339). -/
def dedup_playlists_by_id (playlists : List Playlist) : List Playlist :=
  dedup_playlists_go playlists []

/-! ## Continuation-token pagination (src/yt_music/mod.rs lines 752-767) -/

/-- One page of a continuation-token listing: its item list and the raw
continuation token it carries. -/
structure YtPage (α : Type) where
  items : List α
  continuationToken : Option String
deriving DecidableEq, Repr

/-- Modelled from the spec: `YtMusicResponse::get_continuation` /
`YtMusicContinuationResponse::get_continuation` live in the crate's
`yt_music/model.rs`, which is not among the given sources. Per the spec's
pagination-aggregator section, the extracted continuation handle is absent
when the page has no continuation token or an empty item list (the latter
guards against a stale token being echoed indefinitely). -/
def get_continuation {α : Type} (page : YtPage α) : Option String :=
  if page.items.isEmpty then none else page.continuationToken

/-- The loop of `paginated_request` (yt_music/mod.rs lines 760-765): while a
continuation handle was extracted from the previous page, fetch the next
page (the next element of `rest`), extract its continuation handle, and merge
its items into the accumulated response. `none` marks a run that would fetch
with a continuation although the modelled server has no further page. -/
def paginated_request_go {α : Type} (acc : List α) :
    Option String → List (YtPage α) → Option (List α)
  | none, _ => some acc
  | some _, [] => none
  | some _, page :: rest =>
    paginated_request_go (acc ++ page.items) (get_continuation page) rest

/-- `YtMusicApi::paginated_request` (yt_music/mod.rs lines 752-767) over a
first page and the successive continuation pages the server would return. -/
def paginated_request {α : Type} (first : YtPage α) (rest : List (YtPage α)) :
    Option (List α) :=
  paginated_request_go first.items (get_continuation first) rest

/-! ## Per-platform search_song -/

/-- The query loop shared by the platform clients
(`while let Some(query) = queries.pop()`), running over the reversed query
list so that the most specific query (the last element) is tried first:
return the first per-query hit, or `none` when the queries are exhausted. -/
def query_pop_loop (f : String → Option Song) : List String → Option Song
  | [] => none
  | q :: rest =>
    match f q with
    | some s => some s
    | none => query_pop_loop f rest

/-- Consume the query list by repeatedly removing the last element
(`queries.pop()`), trying `f` on each. -/
def run_query_loop (f : String → Option Song) (queries : List String) : Option Song :=
  query_pop_loop f queries.reverse

/-- `YtMusicApi::search_song` (yt_music/mod.rs lines 1282-1323). With a known
ISRC a single quoted-ISRC search is made (`isrcSearch`, at most one candidate)
and, when it yields a song, that song is returned with the queried ISRC filled
in; there is no fall back to text queries. Without an ISRC the
`build_queries` list (abstract: the crate's `music_api` module is not among
the given sources) is consumed from the back and the first of the top 3
results satisfying `compare` (abstract `cmp`) is returned. -/
def yt_music_search_song (cmp : Song → Song → Bool)
    (isrcSearch : String → Option Song) (querySearch : String → List Song)
    (buildQueries : Song → List String) (song : Song) : Option Song :=
  match song.isrc with
  | some isrc =>
    match isrcSearch isrc with
    | some res => some { res with isrc := some isrc }
    | none => none
  | none =>
    run_query_loop (fun q => ((querySearch q).take 3).find? (fun r => cmp song r))
      (buildQueries song)

/-- `TidalApi::search_song` (tidal/mod.rs lines 414-456). With a known ISRC a
single filtered-tracks request is made with the uppercased ISRC and the first
returned song (if any) is returned; no fall back to text queries. Without an
ISRC the query loop runs as for YtMusic (top 3 results per query). -/
def tidal_search_song (cmp : Song → Song → Bool)
    (isrcSearch : String → List Song) (querySearch : String → List Song)
    (buildQueries : Song → List String) (song : Song) : Option Song :=
  match song.isrc with
  | some isrc =>
    match isrcSearch isrc.toUpper with
    | [] => none
    | s :: _ => some s
  | none =>
    run_query_loop (fun q => ((querySearch q).take 3).find? (fun r => cmp song r))
      (buildQueries song)

/-- `PlexApi::search_song` (plex/mod.rs lines 351-366): the query list is
consumed from the back and every hub-search result is tested with `compare`;
the song's ISRC is never consulted. -/
def plex_search_song (cmp : Song → Song → Bool)
    (hubSearch : String → List Song)
    (buildQueries : Song → List String) (song : Song) : Option Song :=
  run_query_loop (fun q => (hubSearch q).find? (fun r => cmp song r))
    (buildQueries song)

/-! ## Per-platform add_songs_to_playlist (in-memory effect and batches) -/

/-- Classification of the remote reply to a YtMusic `browse/edit_playlist`
request (yt_music/mod.rs lines 1183-1238): success; a confirm dialog titled
Duplicates; a toast saying the track is already in the playlist; or another
failure that propagates as an error. -/
inductive YtEditReply
  | success
  | duplicatesDialog
  | alreadyInPlaylistToast
  | failed
deriving DecidableEq, Repr

/-- `YtMusicApi::add_songs_to_playlist` (yt_music/mod.rs lines 1165-1240),
with the remote reply for each submitted batch given by `reply`. The
submitted songs are first appended to the in-memory playlist; a Duplicates
confirm dialog on a batch of more than one song bisects the batch and retries
each half (aborting if the first half fails), a single already-present song is
ignored, and an unrecognized failure returns an error (`false`). -/
def yt_music_add_songs_to_playlist (reply : List Song → YtEditReply)
    (playlist : Playlist) (songs : List Song) : Playlist × Bool :=
  let pl := { playlist with songs := playlist.songs ++ songs }
  match reply songs with
  | .success => (pl, true)
  | .alreadyInPlaylistToast => (pl, true)
  | .failed => (pl, false)
  | .duplicatesDialog =>
    if h : 1 < songs.length then
      let r1 := yt_music_add_songs_to_playlist reply pl (songs.take (songs.length / 2))
      if r1.2 then
        yt_music_add_songs_to_playlist reply r1.1 (songs.drop (songs.length / 2))
      else (r1.1, false)
    else (pl, true)
termination_by songs.length
decreasing_by
  · simp only [List.length_take]
    omega
  · simp only [List.length_drop]
    omega

/-- `TidalApi::add_songs_to_playlist` (tidal/mod.rs lines 355-390): an empty
batch returns at once; otherwise the joined track ids are posted in a single
request. The in-memory playlist is never modified. Returns the playlist as
the caller sees it afterwards and the track-id batches submitted remotely. -/
def tidal_add_songs_to_playlist (playlist : Playlist) (songs : List Song) :
    Playlist × List (List String) :=
  if songs.isEmpty then (playlist, [])
  else (playlist, [songs.map (fun s => s.id)])

/-- Slices of at most `n` elements, as produced by Rust `slice::chunks`. -/
def chunks {α : Type} (n : Nat) : List α → List (List α)
  | [] => []
  | a :: as =>
    if _h : 0 < n then
      ((a :: as).take n) :: chunks n ((a :: as).drop n)
    else []
termination_by l => l.length
decreasing_by
  simp only [List.length_drop, List.length_cons]
  omega

/-- `PlexApi::add_songs_to_playlist` (plex/mod.rs lines 319-339): the song ids
are submitted in chunks of 5, one request per chunk. The in-memory playlist
is never modified. -/
def plex_add_songs_to_playlist (playlist : Playlist) (songs : List Song) :
    Playlist × List (List String) :=
  (playlist, (chunks 5 songs).map (fun c => c.map (fun s => s.id)))

/-! ## Search pacing (src/sync.rs lines 144-145 and 186-197)

`SONG_COUNTER` and `SLEEP_DURATION` are `static mut` items: process-global
variables initialized once, for the lifetime of the process, to 0 and 180
seconds. Their value is threaded here as an explicit `PacingState`, so a
call of `synchronize_playlists` consumes the state the previous call (in the
same process) left behind; `initial_pacing_state` is their value at process
start. -/

structure PacingState where
  songCounter : Nat
  sleepDuration : Nat
deriving DecidableEq, Repr

/-- The initializers of `SONG_COUNTER` (0) and `SLEEP_DURATION` (180 s). -/
def initial_pacing_state : PacingState := ⟨0, 180⟩

/-- The pacing block of sync.rs lines 188-196, run once per counted search:
increment the counter; on every 200th count sleep for the current cooldown
duration and then grow the duration by 60 seconds. Returns the new state and
the sleep performed, if any. -/
def pace_step (st : PacingState) : PacingState × Option Nat :=
  let c := st.songCounter + 1
  if c % 200 == 0 then
    (⟨c, st.sleepDuration + 60⟩, some st.sleepDuration)
  else
    (⟨c, st.sleepDuration⟩, none)

/-- `n` consecutive counted searches from state `st`: the final state and the
cooldown sleeps performed, in order. -/
def pace_run : Nat → PacingState → PacingState × List Nat
  | 0, st => (st, [])
  | n + 1, st =>
    let r := pace_step st
    let rest := pace_run n r.1
    (rest.1, r.2.toList ++ rest.2)

/-! ## Sync orchestrator (src/sync.rs) -/

/-- `SKIPPED_PLAYLISTS` (sync.rs lines 11-26). -/
def SKIPPED_PLAYLISTS : List String :=
  ["New playlist", "Your Likes", "My Supermix", "Discover Mix",
   "Episodes for Later", "New Release Mix", "Archive Mix",
   "Liked Songs", "Discover Weekly", "Big Room House Mix",
   "Motivation Electronic Mix", "High Energy Mix"]

/-- Modelled from the spec: `dedup_songs` lives in the crate's `utils`
module, which is not among the given sources. Per the spec it removes
platform-level duplicates — songs with equal (source, id) — keeping one
representative (the first occurrence) per pair. `seen` is the accumulated
list of pairs. -/
def dedup_songs_go : List Song → List (MusicApiType × String) → List Song
  | [], _ => []
  | s :: rest, seen =>
    if (s.source, s.id) ∈ seen then dedup_songs_go rest seen
    else s :: dedup_songs_go rest ((s.source, s.id) :: seen)

/-- Modelled from the spec: `utils::dedup_songs`, first occurrence per
(source, id) pair kept, used by sync.rs line 170. -/
def dedup_songs (songs : List Song) : List Song :=
  dedup_songs_go songs []

/-- Rust `str::to_lowercase`, as the lowercased character sequence (ASCII
case mapping; the claims only involve ASCII names). -/
def to_lowercase (s : String) : List Char :=
  s.toList.map Char.toLower

/-- Remove skipped playlists by matching the lowercased names
(sync.rs lines 117-122). -/
def filter_skip_names (skip : List String) (src : List Playlist) : List Playlist :=
  src.filter (fun p =>
    ! skip.any (fun sk => decide (to_lowercase p.name = to_lowercase sk)))

/-- `src_playlists.iter().position(|p| p.name == name)` followed by
`src_playlists.remove(i)` (sync.rs lines 133-135): drop the first playlist
with the given exact name, if any. -/
def remove_first_by_name (nm : String) : List Playlist → List Playlist
  | [] => []
  | p :: rest => if p.name = nm then rest else p :: remove_first_by_name nm rest

/-- The destination-owner filter (sync.rs lines 124-141): `retain` visits the
destination playlists in order; one not owned by `dstOwner` is dropped after
removing the first same-named source playlist. Returns the kept destination
playlists, the surviving source playlists, and the dropped destination
playlists. -/
def owner_filter (dstOwner : String) :
    List Playlist → List Playlist → List Playlist × List Playlist × List Playlist
  | [], src => ([], src, [])
  | d :: rest, src =>
    if d.owner = some dstOwner then
      let r := owner_filter dstOwner rest src
      (d :: r.1, r.2.1, r.2.2)
    else
      let r := owner_filter dstOwner rest (remove_first_by_name d.name src)
      (r.1, r.2.1, d :: r.2.2)

/-- `dst_playlists.iter().position(|p| p.name == src_playlist.name)` with
`remove(i)` (sync.rs lines 155-161): consume the first destination playlist
with the given name, if any, returning it and the remaining list. -/
def find_remove_by_name (nm : String) : List Playlist → Option Playlist × List Playlist
  | [] => (none, [])
  | p :: rest =>
    if p.name = nm then (some p, rest)
    else
      let r := find_remove_by_name nm rest
      (r.1, p :: r.2)

/-- The playlist value returned by `create_playlist(name, false)`: an empty
playlist with the requested name. The id is opaque (platform-assigned) and
the reported owner varies by platform (`Some("")` for YtMusic and Tidal), so
the owner is the parameter `newOwner` of the run. -/
def created_playlist (newOwner : Option String) (nm : String) : Playlist :=
  ⟨"created", nm, [], newOwner⟩

/-- Output of the search loop of sync.rs lines 180-227. -/
structure Phase1Out where
  found : List Song
  pace : PacingState
  sleeps : List Nat
deriving Repr

/-- The search loop (sync.rs lines 180-227): for each source song, skip it if
already contained in the destination playlist; otherwise, when the
destination is YtMusic, run the pacing block; then search it on the
destination (`searchFn`, the dynamic `dst_api.search_song`), collecting the
matches in order and skipping songs with no match. -/
def phase1 (cmp : Song → Song → Bool) (searchFn : Song → Option Song)
    (isYt : Bool) (dstSongs : List Song) :
    List Song → PacingState → Phase1Out
  | [], pace => ⟨[], pace, []⟩
  | s :: rest, pace =>
    if list_contains cmp dstSongs s then
      phase1 cmp searchFn isYt dstSongs rest pace
    else
      let step := if isYt then pace_step pace else (pace, none)
      let r := phase1 cmp searchFn isYt dstSongs rest step.1
      match searchFn s with
      | none => ⟨r.found, r.pace, step.2.toList ++ r.sleeps⟩
      | some d => ⟨d :: r.found, r.pace, step.2.toList ++ r.sleeps⟩

/-- The batch-collection loop (sync.rs lines 231-254): a found song already in
the destination playlist (the no-ISRC discrepancy check) or already queued in
the batch is skipped; the rest are queued in order. -/
def phase2 (cmp : Song → Song → Bool) (dstSongs : List Song) :
    List Song → List Song → List Song
  | [], toSync => toSync
  | d :: rest, toSync =>
    if list_contains cmp dstSongs d then phase2 cmp dstSongs rest toSync
    else if list_contains cmp toSync d then phase2 cmp dstSongs rest toSync
    else phase2 cmp dstSongs rest (toSync ++ [d])

/-- Result of the per-playlist body: the destination playlist with the queued
batch appended (its state after a successful submission), the
`add_songs_to_playlist` batches and `add_likes` lists submitted, and the
pacing state and cooldown sleeps. -/
structure BodyOut where
  playlist : Playlist
  addBatches : List (List Song)
  likeBatches : List (List Song)
  pace : PacingState
  sleeps : List Nat
deriving Repr

/-- The per-playlist body (sync.rs lines 151-268): deduplicate the source
songs, run the search loop, and, only when at least one search succeeded,
collect the batch and call `add_songs_to_playlist` with it (even when every
found song was discarded and the batch is empty), then — with `like_all` —
call `add_likes` with the queued songs not already in the destination
likes. -/
def sync_body (cmp : Song → Song → Bool) (searchFn : Song → Option Song)
    (isYt likeAll : Bool) (dstLikes : List Song)
    (srcSongs : List Song) (dstPl : Playlist) (pace : PacingState) : BodyOut :=
  let deduped := dedup_songs srcSongs
  let p1 := phase1 cmp searchFn isYt dstPl.songs deduped pace
  if p1.found.isEmpty then
    ⟨dstPl, [], [], p1.pace, p1.sleeps⟩
  else
    let toSync := phase2 cmp dstPl.songs p1.found []
    let likes :=
      if likeAll then [toSync.filter (fun s => ! list_contains cmp dstLikes s)]
      else []
    ⟨{ dstPl with songs := dstPl.songs ++ toSync }, [toSync], likes, p1.pace, p1.sleeps⟩

/-- Observable result of a `synchronize_playlists` run: the mutation calls it
issued (`createPlaylist` names, `addSongsToPlaylist` batches tagged with the
playlist name, `addLikes` lists), the cooldown sleeps, the playlists it
processed (in order, in their final state), the destination playlists it
never touched, the destination playlists dropped by the owner filter, and the
final pacing state. -/
structure RunOutput where
  creates : List String
  adds : List (String × List Song)
  likeBatches : List (List Song)
  sleeps : List Nat
  processed : List Playlist
  dstLeftover : List Playlist
  dstDropped : List Playlist
  pace : PacingState
deriving Repr

/-- The main loop of `synchronize_playlists` (sync.rs lines 147-333): source
playlists whose name is in `SKIPPED_PLAYLISTS` (exact match) or which are
empty are passed over; each remaining one consumes the first same-named
destination playlist or creates a new one, then runs the per-playlist body. -/
def sync_loop (cmp : Song → Song → Bool) (searchFn : Song → Option Song)
    (isYt likeAll : Bool) (dstLikes : List Song) (newOwner : Option String) :
    List Playlist → List Playlist → PacingState → RunOutput
  | [], dst, pace => ⟨[], [], [], [], [], dst, [], pace⟩
  | sp :: rest, dst, pace =>
    if sp.name ∈ SKIPPED_PLAYLISTS ∨ sp.songs = [] then
      sync_loop cmp searchFn isYt likeAll dstLikes newOwner rest dst pace
    else
      let fr := find_remove_by_name sp.name dst
      let dstPl := match fr.1 with
        | some p => p
        | none => created_playlist newOwner sp.name
      let createdNames : List String := match fr.1 with
        | some _ => []
        | none => [sp.name]
      let b := sync_body cmp searchFn isYt likeAll dstLikes sp.songs dstPl pace
      let r := sync_loop cmp searchFn isYt likeAll dstLikes newOwner rest fr.2 b.pace
      ⟨createdNames ++ r.creates,
       b.addBatches.map (fun batch => (sp.name, batch)) ++ r.adds,
       b.likeBatches ++ r.likeBatches,
       b.sleeps ++ r.sleeps,
       b.playlist :: r.processed,
       r.dstLeftover,
       r.dstDropped,
       r.pace⟩

/-- `synchronize_playlists` (sync.rs lines 90-338): filter the source
playlists against the caller skip-list (lowercased names), run the
destination owner filter (which also drops same-named source playlists), and
run the main loop. `cmp` is the abstract song equivalence (`Song`'s
`PartialEq`, crate code not among the given sources), `searchFn` the
destination search against the immutable snapshot, `isYt` whether the
destination platform is YtMusic, `pace` the value of the process-global
pacing statics when the call starts. -/
def synchronize_playlists (cmp : Song → Song → Bool)
    (searchFn : Song → Option Song) (isYt likeAll : Bool)
    (dstLikes : List Song) (newOwner : Option String)
    (skip : List String) (dstOwner : String)
    (src dst : List Playlist) (pace : PacingState) : RunOutput :=
  let src1 := filter_skip_names skip src
  let of := owner_filter dstOwner dst src1
  let r := sync_loop cmp searchFn isYt likeAll dstLikes newOwner of.2.1 of.1 pace
  { r with dstDropped := of.2.2 }

/-- The destination playlist set left behind by a run: the playlists the run
processed (with their additions), the owned playlists it never matched, and
the non-owned playlists it ignored — the snapshot a second run would work
against. -/
def state_after (r : RunOutput) : List Playlist :=
  r.processed ++ r.dstLeftover ++ r.dstDropped

/-- The source-playlist list a second run's owner filter leaves, given the
first run's output: the non-owned playlists the first run processed or
created (owner ≠ configured owner in the re-fetched state) knock out the
same-named source playlists. -/
def run2_input_sps (dstOwner : String) (r1 : RunOutput) (sps : List Playlist) :
    List Playlist :=
  sps.filter (fun p =>
    (r1.processed.filter (fun q => !decide (q.owner = some dstOwner))).all
      (fun q => !decide (q.name = p.name)))

/-- The destination-playlist list a second run's owner filter keeps, given
the first run's output: the owned playlists it processed, then the owned
leftovers. -/
def run2_input_dst (dstOwner : String) (r1 : RunOutput) : List Playlist :=
  r1.processed.filter (fun q => decide (q.owner = some dstOwner)) ++ r1.dstLeftover

/-- The searched-and-found songs of the per-playlist body, as a function of
the source songs and the destination playlist's song list: the deduplicated
source songs that pass the membership pre-check, resolved through the
search, skipping misses. -/
def body_found (cmp : Song → Song → Bool) (f : Song → Option Song)
    (S D : List Song) : List Song :=
  ((dedup_songs S).filter (fun s => ! list_contains cmp D s)).filterMap f

/-! ## Concrete instances used to evaluate the definitions -/

/-- Song equivalence instantiated to plain structural equality (reflexive,
as the spec requires of `compare`). -/
def cmpEq : Song → Song → Bool := fun a b => decide (a = b)

/-- A Spotify source song carrying an ISRC. -/
def exSongIsrc : Song :=
  ⟨.Spotify, "src1", none, some "QZABC1700001", "Some Title", [⟨"Artist", none⟩], none, 200000⟩

/-- The Tidal track the ISRC lookup would return for `exSongIsrc`. -/
def exTidalHit : Song :=
  ⟨.Tidal, "tid9", none, some "QZABC1700001", "Some Title", [⟨"Artist", none⟩], none, 200500⟩

/-- An ISRC lookup table returning `exTidalHit` for the example ISRC. -/
def exIsrcTable : String → List Song :=
  fun i => if i = "QZABC1700001" then [exTidalHit] else []

/-- An ISRC lookup (single candidate) returning `exTidalHit` for the
example ISRC. -/
def exIsrcLookup : String → Option Song :=
  fun i => if i = "QZABC1700001" then some exTidalHit else none

/-- A text search that never returns candidates. -/
def exNoResults : String → List Song := fun _ => []

/-- A query builder producing one query. -/
def exOneQuery : Song → List String := fun _ => ["Artist Some Title"]

/-- A source song used in the playlist examples. -/
def exSrcSong : Song :=
  ⟨.Spotify, "sA", none, none, "Alpha", [⟨"A", none⟩], none, 180000⟩

/-- The (different) destination song the search resolves `exSrcSong` to. -/
def exDstSong : Song :=
  ⟨.YtMusic, "yA", none, none, "Alpha (Official Video)", [⟨"A", none⟩], none, 181000⟩

/-- A destination search resolving `exSrcSong` to `exDstSong`. -/
def exSearch : Song → Option Song :=
  fun s => if s.id = "sA" then some exDstSong else none

/-- An empty destination playlist. -/
def exEmptyPlaylist : Playlist := ⟨"pl0", "Mix", [], some "u"⟩

/-- Source playlist "P" for the idempotence example. -/
def exC1Src : Playlist := ⟨"s1", "P", [exSrcSong], some "u"⟩

/-- Destination playlist "P" already containing `exDstSong`. -/
def exC1Dst : Playlist := ⟨"d1", "P", [exDstSong], some "u"⟩

/-- A source playlist differing from the fixed entry "Liked Songs" only in
letter case. -/
def exLikedLower : Playlist := ⟨"s2", "liked songs", [exSrcSong], some "u"⟩

/-- Two source playlists sharing the name "Foo". -/
def exFoo1 : Playlist := ⟨"s3", "Foo", [exSrcSong], some "u"⟩

/-- Second source playlist named "Foo". -/
def exFoo2 : Playlist := ⟨"s4", "Foo", [exSrcSong], some "u"⟩

/-- A destination playlist "Foo" owned by someone else. -/
def exFooOther : Playlist := ⟨"d2", "Foo", [], some "other"⟩

/-- `n` distinct source songs. -/
def exManySongs (n : Nat) : List Song :=
  (List.range n).map (fun i => ⟨.Spotify, toString i, none, none, toString i, [], none, 0⟩)

/-- A source playlist with 100 distinct songs, for the pacing example. -/
def exBigSrc : Playlist := ⟨"s5", "Big", exManySongs 100, some "u"⟩

/-- An empty destination playlist named "Big" owned by "u". -/
def exBigDst : Playlist := ⟨"d5", "Big", [], some "u"⟩

/-! # Theorems -/

/-! ## C2: rate-limit backoff -/

/-- A 429 response is always classified as rate limited, whatever the body. -/
lemma handle_rate_limit_429 (text : String) (rc : Nat) :
    handle_rate_limit_with_retry 429 text rc =
      if rc ≥ 5 then .MaxRetriesExceeded
      else .Retry (min (3 ^ (rc + 1)) 900) := by
  simp [handle_rate_limit_with_retry, MAX_RETRIES, MAX_BACKOFF_SECS]

/-- C2 (counterexample): the claimed schedule "attempts 0 through 5 sleep
3..729 seconds and only a 7th consecutive rate-limited response exhausts" is
false: at attempt 5 (the 6th consecutive rate-limited response) the policy
does not retry with a 729-second backoff but transitions to exhaustion, so a
run of 6 rate-limited responses performs only the sleeps 3, 9, 27, 81, 243
and surfaces the terminal error. -/
theorem rate_limit_sixth_response_exhausts :
    handle_rate_limit_with_retry 429 "" 5 = RateLimitAction.MaxRetriesExceeded ∧
    handle_rate_limit_with_retry 429 "" 5 ≠ RateLimitAction.Retry 729 ∧
    request_retry_loop (List.replicate 6 (429, "")) 0 =
      ([3, 9, 27, 81, 243], RequestOutcome.Exhausted 429 "") := by
  refine ⟨by decide, by decide, ?_⟩
  decide

/-- C2 (amended): for attempts 0 through 4 the retry policy sleeps
min(3^(attempt+1), 900) seconds — the backoff durations 3, 9, 27, 81, 243 —
and already the 6th consecutive rate-limited response (attempt count 5, the
fixed maximum of 6 total attempts) transitions to Exhausted, surfacing a
terminal error that references the captured diagnostic payload. -/
theorem rate_limit_backoff_schedule (text : String) (n : Nat) (hn : 6 ≤ n) :
    request_retry_loop (List.replicate n (429, text)) 0 =
      ([3, 9, 27, 81, 243], RequestOutcome.Exhausted 429 text) ∧
    ∀ rc, rc < MAX_RETRIES →
      handle_rate_limit_with_retry 429 text rc =
        RateLimitAction.Retry (min (3 ^ (rc + 1)) MAX_BACKOFF_SECS) := by
  constructor
  · obtain ⟨m, rfl⟩ : ∃ m, n = m + 6 := ⟨n - 6, by omega⟩
    have hrep : List.replicate (m + 6) ((429 : Nat), text) =
        (429, text) :: (429, text) :: (429, text) :: (429, text) ::
        (429, text) :: (429, text) :: List.replicate m (429, text) := rfl
    rw [hrep]
    simp only [request_retry_loop, handle_rate_limit_429]
    norm_num
  · intro rc hrc
    rw [handle_rate_limit_429]
    rw [if_neg (by simp [MAX_RETRIES] at hrc ⊢; omega)]
    simp [MAX_BACKOFF_SECS]

/-- C2 witness: the amended schedule evaluated on 7 consecutive rate-limited
responses with a concrete diagnostic body. -/
theorem rate_limit_backoff_schedule_witness :
    6 ≤ 7 ∧
    request_retry_loop (List.replicate 7 (429, "automated queries")) 0 =
      ([3, 9, 27, 81, 243], RequestOutcome.Exhausted 429 "automated queries") :=
  ⟨by decide, (rate_limit_backoff_schedule "automated queries" 7 (by decide)).1⟩

/-! ## C10: parse_duration -/

/-- C10: `parse_duration` is partial: on a duration string whose
colon-separated parts are all numeric it returns, when there are at most
three parts, the millisecond total of the parts (rightmost first) weighted by
the multipliers 1, 60 and 3600 seconds; when there are four or more parts the
indexing into the fixed three-element multiplier array is out of bounds and
the function panics instead of returning an error. -/
theorem parse_duration_bounds (s : String)
    (hnum : ∀ p ∈ rsplit_colon s, parse_usize p ≠ none) :
    ((rsplit_colon s).length ≤ 3 →
      parse_duration s = .ok
        ((((rsplit_colon s).zip multipliers).map
          (fun pm => (parse_usize pm.1).getD 0 * pm.2)).sum * 1000)) ∧
    (4 ≤ (rsplit_colon s).length → parse_duration s = .panicked) := by
  rcases hps : rsplit_colon s with _ | ⟨a, _ | ⟨b, _ | ⟨c, _ | ⟨d, rest⟩⟩⟩⟩
  · constructor
    · intro _
      simp [parse_duration, hps, parse_duration_go]
    · intro h4
      simp at h4
  · rw [hps] at hnum
    obtain ⟨va, hva⟩ := Option.ne_none_iff_exists'.mp (hnum a (by simp))
    constructor
    · intro _
      simp [parse_duration, hps, parse_duration_go, hva, multipliers]
    · intro h4
      simp at h4
  · rw [hps] at hnum
    obtain ⟨va, hva⟩ := Option.ne_none_iff_exists'.mp (hnum a (by simp))
    obtain ⟨vb, hvb⟩ := Option.ne_none_iff_exists'.mp (hnum b (by simp))
    constructor
    · intro _
      simp [parse_duration, hps, parse_duration_go, hva, hvb, multipliers]
    · intro h4
      simp at h4
  · rw [hps] at hnum
    obtain ⟨va, hva⟩ := Option.ne_none_iff_exists'.mp (hnum a (by simp))
    obtain ⟨vb, hvb⟩ := Option.ne_none_iff_exists'.mp (hnum b (by simp))
    obtain ⟨vc, hvc⟩ := Option.ne_none_iff_exists'.mp (hnum c (by simp))
    constructor
    · intro _
      simp [parse_duration, hps, parse_duration_go, hva, hvb, hvc, multipliers]
      ring
    · intro h4
      simp at h4
  · rw [hps] at hnum
    obtain ⟨va, hva⟩ := Option.ne_none_iff_exists'.mp (hnum a (by simp))
    obtain ⟨vb, hvb⟩ := Option.ne_none_iff_exists'.mp (hnum b (by simp))
    obtain ⟨vc, hvc⟩ := Option.ne_none_iff_exists'.mp (hnum c (by simp))
    obtain ⟨vd, hvd⟩ := Option.ne_none_iff_exists'.mp (hnum d (by simp))
    constructor
    · intro h3
      simp at h3
    · intro _
      simp [parse_duration, hps, parse_duration_go, hva, hvb, hvc, hvd, multipliers]

/-! ## C9: playlist deduplication by id -/

/-- Every playlist kept by the deduplication loop has an id outside `seen`. -/
lemma dedup_go_id_not_seen :
    ∀ (ps : List Playlist) (seen : List String) (q : Playlist),
      q ∈ dedup_playlists_go ps seen → q.id ∉ seen
  | [], _, _, hq => by simp [dedup_playlists_go] at hq
  | p :: rest, seen, q, hq => by
    by_cases hp : p.id ∈ seen
    · rw [dedup_playlists_go, if_pos hp] at hq
      exact dedup_go_id_not_seen rest seen q hq
    · rw [dedup_playlists_go, if_neg hp] at hq
      rcases List.mem_cons.mp hq with rfl | hq
      · exact hp
      · have := dedup_go_id_not_seen rest (p.id :: seen) q hq
        exact fun hmem => this (List.mem_cons_of_mem _ hmem)

/-- The deduplication loop returns a sublist of its input. -/
lemma dedup_go_sublist :
    ∀ (ps : List Playlist) (seen : List String),
      (dedup_playlists_go ps seen).Sublist ps
  | [], _ => by simp [dedup_playlists_go]
  | p :: rest, seen => by
    by_cases hp : p.id ∈ seen
    · rw [dedup_playlists_go, if_pos hp]
      exact (dedup_go_sublist rest seen).cons p
    · rw [dedup_playlists_go, if_neg hp]
      exact (dedup_go_sublist rest (p.id :: seen)).cons₂ p

/-- The ids kept by the deduplication loop are pairwise distinct. -/
lemma dedup_go_nodup :
    ∀ (ps : List Playlist) (seen : List String),
      ((dedup_playlists_go ps seen).map Playlist.id).Nodup
  | [], _ => by simp [dedup_playlists_go]
  | p :: rest, seen => by
    by_cases hp : p.id ∈ seen
    · rw [dedup_playlists_go, if_pos hp]
      exact dedup_go_nodup rest seen
    · rw [dedup_playlists_go, if_neg hp]
      refine List.nodup_cons.mpr ⟨?_, dedup_go_nodup rest (p.id :: seen)⟩
      intro hmem
      obtain ⟨q, hq, hqid⟩ := List.mem_map.mp hmem
      exact dedup_go_id_not_seen rest (p.id :: seen) q hq (hqid ▸ List.mem_cons_self _ _)

/-- Every input id is represented in the output (or was already seen). -/
lemma dedup_go_covers :
    ∀ (ps : List Playlist) (seen : List String) (p : Playlist), p ∈ ps →
      p.id ∈ seen ∨ ∃ q ∈ dedup_playlists_go ps seen, q.id = p.id
  | [], _, _, hp => by simp at hp
  | h :: rest, seen, p, hp => by
    by_cases hh : h.id ∈ seen
    · rw [dedup_playlists_go, if_pos hh]
      rcases List.mem_cons.mp hp with rfl | hp
      · exact Or.inl hh
      · exact dedup_go_covers rest seen p hp
    · rw [dedup_playlists_go, if_neg hh]
      rcases List.mem_cons.mp hp with heq | hp
      · exact Or.inr ⟨h, List.mem_cons_self _ _, (congrArg Playlist.id heq).symm⟩
      · rcases dedup_go_covers rest (h.id :: seen) p hp with hmem | ⟨q, hq, hqid⟩
        · rcases List.mem_cons.mp hmem with heq | hmem2
          · exact Or.inr ⟨h, List.mem_cons_self _ _, heq.symm⟩
          · exact Or.inl hmem2
        · exact Or.inr ⟨q, List.mem_cons_of_mem _ hq, hqid⟩

/-- Every kept playlist is the first occurrence of its id in the input. -/
lemma dedup_go_first :
    ∀ (ps : List Playlist) (seen : List String) (q : Playlist),
      q ∈ dedup_playlists_go ps seen →
      ps.find? (fun r => r.id == q.id) = some q
  | [], _, _, hq => by simp [dedup_playlists_go] at hq
  | h :: rest, seen, q, hq => by
    by_cases hh : h.id ∈ seen
    · rw [dedup_playlists_go, if_pos hh] at hq
      have hne : q.id ∉ seen := dedup_go_id_not_seen rest seen q hq
      have hneq : (h.id == q.id) = false := by
        simp only [beq_eq_false_iff_ne, ne_eq]
        intro heq
        exact hne (heq ▸ hh)
      rw [List.find?_cons, hneq]
      exact dedup_go_first rest seen q hq
    · rw [dedup_playlists_go, if_neg hh] at hq
      rcases List.mem_cons.mp hq with rfl | hq
      · rw [List.find?_cons]
        simp
      · have hne : q.id ∉ h.id :: seen := dedup_go_id_not_seen rest (h.id :: seen) q hq
        have hneq : (h.id == q.id) = false := by
          simp only [beq_eq_false_iff_ne, ne_eq]
          intro heq
          exact hne (heq ▸ List.mem_cons_self _ _)
        rw [List.find?_cons, hneq]
        exact dedup_go_first rest (h.id :: seen) q hq

/-- C9: `get_playlists_info` deduplication — for every platform playlist
list (possibly with repeated ids) the deduplication loop keeps a sublist of
the input (so first-occurrence order is preserved) whose ids are pairwise
distinct, every input id has exactly one representative, and each kept
playlist is the first occurrence of its id in the input. -/
theorem get_playlists_info_dedup (ps : List Playlist) :
    (dedup_playlists_by_id ps).Sublist ps ∧
    ((dedup_playlists_by_id ps).map Playlist.id).Nodup ∧
    (∀ p ∈ ps, ∃ q ∈ dedup_playlists_by_id ps, q.id = p.id) ∧
    (∀ q ∈ dedup_playlists_by_id ps,
      ps.find? (fun r => r.id == q.id) = some q) := by
  refine ⟨dedup_go_sublist ps [], dedup_go_nodup ps [], ?_, ?_⟩
  · intro p hp
    rcases dedup_go_covers ps [] p hp with hmem | hex
    · simp at hmem
    · exact hex
  · intro q hq
    exact dedup_go_first ps [] q hq

/-- C9 witness: deduplicating a concrete list with a repeated id. -/
theorem get_playlists_info_dedup_witness :
    (⟨"a", "One", [], none⟩ : Playlist) ∈
      [(⟨"a", "One", [], none⟩ : Playlist), ⟨"b", "Two", [], none⟩,
       ⟨"a", "One again", [], none⟩] ∧
    ∃ q ∈ dedup_playlists_by_id
      [(⟨"a", "One", [], none⟩ : Playlist), ⟨"b", "Two", [], none⟩,
       ⟨"a", "One again", [], none⟩],
      q.id = (⟨"a", "One again", [], none⟩ : Playlist).id :=
  ⟨by decide,
   (get_playlists_info_dedup
      [⟨"a", "One", [], none⟩, ⟨"b", "Two", [], none⟩,
       ⟨"a", "One again", [], none⟩]).2.2.1
     ⟨"a", "One again", [], none⟩ (by decide)⟩

/-! ## C3: continuation-token pagination -/

/-- Unrolling the aggregation loop over pages that all carry items and a
token, followed by a final page whose extracted continuation is absent. -/
lemma paginated_go_run :
    ∀ (mids : List (YtPage Nat)) (acc : List Nat) (t : String)
      (final : YtPage Nat),
      (∀ p ∈ mids, p.items ≠ [] ∧ p.continuationToken ≠ none) →
      get_continuation final = none →
      paginated_request_go acc (some t) (mids ++ [final]) =
        some (acc ++ (mids.map YtPage.items).flatten ++ final.items)
  | [], acc, t, final, _, hfin => by
    simp [paginated_request_go, hfin]
  | p :: rest, acc, t, final, hall, hfin => by
    obtain ⟨hpi, hpt⟩ := hall p (List.mem_cons_self _ _)
    obtain ⟨tok, htok⟩ := Option.ne_none_iff_exists'.mp hpt
    have hcont : get_continuation p = some tok := by
      rw [get_continuation, if_neg (by simpa using hpi), htok]
    rw [List.cons_append, paginated_request_go, hcont]
    rw [paginated_go_run rest (acc ++ p.items) tok final
      (fun q hq => hall q (List.mem_cons_of_mem _ hq)) hfin]
    simp [List.append_assoc]

/-- C3: the pagination aggregator stops as soon as a page yields no
continuation handle — a page with no token or with an empty item list,
whichever comes first. Given pages 1..N all non-empty and carrying tokens,
followed (first conjunct) by an empty page — even one echoing a stale
token — the merged result is exactly the items of pages 1..N and the
aggregator terminates; a final page carrying items but no token (second
conjunct) likewise ends the run, contributing its items. -/
theorem paginated_request_stops (first e last : YtPage Nat)
    (mids : List (YtPage Nat))
    (hall : ∀ p ∈ first :: mids, p.items ≠ [] ∧ p.continuationToken ≠ none)
    (he : e.items = [])
    (hlast : last.items ≠ []) (hlastTok : last.continuationToken = none) :
    paginated_request first (mids ++ [e]) =
      some (((first :: mids).map YtPage.items).flatten) ∧
    paginated_request first (mids ++ [last]) =
      some ((((first :: mids).map YtPage.items).flatten) ++ last.items) := by
  obtain ⟨hfi, hft⟩ := hall first (List.mem_cons_self _ _)
  obtain ⟨tok, htok⟩ := Option.ne_none_iff_exists'.mp hft
  have hcont : get_continuation first = some tok := by
    rw [get_continuation, if_neg (by simpa using hfi), htok]
  have hmids : ∀ p ∈ mids, p.items ≠ [] ∧ p.continuationToken ≠ none :=
    fun q hq => hall q (List.mem_cons_of_mem _ hq)
  constructor
  · rw [paginated_request, hcont,
      paginated_go_run mids first.items tok e hmids
        (by rw [get_continuation, if_pos (by simpa using he)])]
    simp [he]
  · rw [paginated_request, hcont,
      paginated_go_run mids first.items tok last hmids
        (by rw [get_continuation, if_neg (by simpa using hlast), hlastTok])]
    simp

/-- C3 witness: two non-empty pages followed by an empty page echoing a stale
token aggregate to exactly the items of the non-empty pages; with a final
tokenless page its items are included. -/
theorem paginated_request_stops_witness :
    paginated_request (⟨[1, 2], some "t1"⟩ : YtPage Nat)
        ([⟨[3], some "t2"⟩] ++ [⟨[], some "stale"⟩]) = some [1, 2, 3] ∧
    paginated_request (⟨[1, 2], some "t1"⟩ : YtPage Nat)
        ([⟨[3], some "t2"⟩] ++ [⟨[9], none⟩]) = some [1, 2, 3, 9] := by
  have h := paginated_request_stops ⟨[1, 2], some "t1"⟩ ⟨[], some "stale"⟩
    ⟨[9], none⟩ [⟨[3], some "t2"⟩] (by decide) (by decide) (by decide) (by decide)
  constructor
  · have h1 := h.1
    simpa using h1
  · have h2 := h.2
    simpa using h2

/-- C10 witness: "1:2:3:4" (four numeric parts) panics, while "3:25"
(two parts) parses to 205000 milliseconds. -/
theorem parse_duration_bounds_witness :
    (∀ p ∈ rsplit_colon "1:2:3:4", parse_usize p ≠ none) ∧
    parse_duration "1:2:3:4" = RustOutcome.panicked ∧
    parse_duration "3:25" = RustOutcome.ok 205000 := by
  refine ⟨by decide, (parse_duration_bounds "1:2:3:4" (by decide)).2 (by decide), ?_⟩
  have h := (parse_duration_bounds "3:25" (by decide)).1 (by decide)
  simpa using h

/-! ## C5: search_song -/

/-- A query loop whose per-query search never hits returns no result. -/
lemma query_pop_loop_none (f : String → Option Song) :
    ∀ l : List String, (∀ q ∈ l, f q = none) → query_pop_loop f l = none
  | [], _ => rfl
  | q :: rest, hall => by
    rw [query_pop_loop, hall q (List.mem_cons_self _ _)]
    exact query_pop_loop_none f rest (fun r hr => hall r (List.mem_cons_of_mem _ hr))

/-- Exhausting every query without a hit yields no result. -/
lemma run_query_loop_none (f : String → Option Song) (qs : List String)
    (hall : ∀ q ∈ qs, f q = none) : run_query_loop f qs = none := by
  rw [run_query_loop]
  exact query_pop_loop_none f qs.reverse (fun q hq => hall q (List.mem_reverse.mp hq))

/-- The last query of the list is tried first. -/
lemma run_query_loop_last (f : String → Option Song) (qs : List String)
    (q : String) (s : Song) (hq : f q = some s) :
    run_query_loop f (qs ++ [q]) = some s := by
  rw [run_query_loop, List.reverse_append, List.reverse_singleton,
    List.singleton_append, query_pop_loop, hq]

/-- C5 (counterexample): `search_song` is not ISRC-first on every platform
client. On a song carrying an ISRC that the platform ISRC lookup resolves
(as Tidal's does here), the Plex client still finds nothing, because its
`search_song` never consults the ISRC — it only iterates `build_queries`
over the hub search. -/
theorem plex_search_ignores_isrc :
    exSongIsrc.isrc = some "QZABC1700001" ∧
    yt_music_search_song cmpEq exIsrcLookup exNoResults exOneQuery exSongIsrc =
      some exTidalHit ∧
    plex_search_song cmpEq exNoResults exOneQuery exSongIsrc = none := by
  refine ⟨rfl, ?_, rfl⟩
  decide

/-- C5 (amended): for the YtMusic and Tidal clients, a song with a known
ISRC is searched by exact ISRC only — YtMusic returns the unique candidate
with the queried ISRC filled in, Tidal the first candidate for the
uppercased ISRC, and an empty candidate set gives no result (not an error,
and no fall back to text queries). For a song without an ISRC, and for the
Plex client always (Plex never consults the ISRC), the client iterates the
`build_queries` output most-specific-first, consuming the query list by
repeatedly removing the last element, and returns the first candidate (among
the top 3 per query for YtMusic/Tidal, among all hub results for Plex) for
which `compare` holds; exhausting all queries without a match returns no
result rather than an error. -/
theorem search_song_isrc_then_queries (cmp : Song → Song → Bool)
    (isrcS : String → Option Song) (isrcST : String → List Song)
    (qS hubS : String → List Song) (bq : Song → List String) (song : Song) :
    (∀ i, song.isrc = some i →
      yt_music_search_song cmp isrcS qS bq song =
        (isrcS i).map (fun r => { r with isrc := some i }) ∧
      tidal_search_song cmp isrcST qS bq song = (isrcST i.toUpper).head?) ∧
    (song.isrc = none →
      (∀ q ∈ bq song, ((qS q).take 3).find? (fun r => cmp song r) = none) →
      yt_music_search_song cmp isrcS qS bq song = none ∧
      tidal_search_song cmp isrcST qS bq song = none) ∧
    (song.isrc = none →
      ∀ qs q s, bq song = qs ++ [q] →
        ((qS q).take 3).find? (fun r => cmp song r) = some s →
        yt_music_search_song cmp isrcS qS bq song = some s ∧
        tidal_search_song cmp isrcST qS bq song = some s) ∧
    ((∀ q ∈ bq song, (hubS q).find? (fun r => cmp song r) = none) →
      plex_search_song cmp hubS bq song = none) ∧
    (∀ qs q s, bq song = qs ++ [q] →
      (hubS q).find? (fun r => cmp song r) = some s →
      plex_search_song cmp hubS bq song = some s) := by
  refine ⟨?_, ?_, ?_, ?_, ?_⟩
  · intro i hi
    constructor
    · rw [yt_music_search_song, hi]
      rcases h : isrcS i with _ | res <;> simp [h]
    · rw [tidal_search_song, hi]
      rcases h : isrcST i.toUpper with _ | ⟨s0, rest0⟩ <;> simp [h]
  · intro hnone hall
    constructor
    · rw [yt_music_search_song, hnone]
      exact run_query_loop_none _ _ hall
    · rw [tidal_search_song, hnone]
      exact run_query_loop_none _ _ hall
  · intro hnone qs q s hbq hhit
    constructor
    · rw [yt_music_search_song, hnone, hbq]
      exact run_query_loop_last _ qs q s hhit
    · rw [tidal_search_song, hnone, hbq]
      exact run_query_loop_last _ qs q s hhit
  · intro hall
    rw [plex_search_song]
    exact run_query_loop_none _ _ hall
  · intro qs q s hbq hhit
    rw [plex_search_song, hbq]
    exact run_query_loop_last _ qs q s hhit

/-- C5 witness: the amended search behaviour evaluated on concrete oracles —
the most specific (last) query hits for Plex even though the song has an
ISRC, and the ISRC path resolves for Tidal. -/
theorem search_song_isrc_then_queries_witness :
    exSongIsrc.isrc = some "QZABC1700001" ∧
    plex_search_song cmpEq exNoResults exOneQuery exSongIsrc = none ∧
    yt_music_search_song cmpEq exIsrcLookup exNoResults exOneQuery exSongIsrc =
      (exIsrcLookup "QZABC1700001").map (fun r => { r with isrc := some "QZABC1700001" }) := by
  refine ⟨rfl, ?_, ?_⟩
  · exact (search_song_isrc_then_queries cmpEq exIsrcLookup exIsrcTable
      exNoResults exNoResults exOneQuery exSongIsrc).2.2.2.1
      (fun q _ => rfl)
  · exact ((search_song_isrc_then_queries cmpEq exIsrcLookup exIsrcTable
      exNoResults exNoResults exOneQuery exSongIsrc).1 "QZABC1700001" rfl).1

/-! ## C6: add_songs_to_playlist in-memory effect -/

/-- The YtMusic add only ever appends to the in-memory playlist: every song
of the input playlist is still present afterwards. -/
lemma yt_add_keeps (reply : List Song → YtEditReply) :
    ∀ (n : Nat) (playlist : Playlist) (songs : List Song),
      songs.length ≤ n → ∀ x ∈ playlist.songs,
      x ∈ (yt_music_add_songs_to_playlist reply playlist songs).1.songs
  | 0, playlist, songs, hn, x, hx => by
    rw [yt_music_add_songs_to_playlist.eq_def]
    have hempty : songs = [] := List.length_eq_zero.mp (Nat.le_zero.mp hn)
    subst hempty
    cases reply [] <;> simp [hx]
  | n + 1, playlist, songs, hn, x, hx => by
    rw [yt_music_add_songs_to_playlist.eq_def]
    have hx2 : x ∈ playlist.songs ++ songs := List.mem_append_left _ hx
    cases hr : reply songs with
    | success => simpa using hx2
    | alreadyInPlaylistToast => simpa using hx2
    | failed => simpa using hx2
    | duplicatesDialog =>
      dsimp only
      by_cases hlen : 1 < songs.length
      · rw [dif_pos hlen]
        have htake : (songs.take (songs.length / 2)).length ≤ n := by
          simp only [List.length_take]
          omega
        have h1 := yt_add_keeps reply n
          { playlist with songs := playlist.songs ++ songs }
          (songs.take (songs.length / 2)) htake x hx2
        by_cases hok : (yt_music_add_songs_to_playlist reply
            { playlist with songs := playlist.songs ++ songs }
            (songs.take (songs.length / 2))).2
        · rw [if_pos hok]
          have hdrop : (songs.drop (songs.length / 2)).length ≤ n := by
            simp only [List.length_drop]
            omega
          exact yt_add_keeps reply n _ (songs.drop (songs.length / 2)) hdrop x h1
        · rw [if_neg hok]
          exact h1
      · rw [dif_neg hlen]
        simpa using hx2

/-- C6 (counterexample): `addSongsToPlaylist` does not append to the
in-memory playlist on every platform client: the Tidal and Plex clients
leave the caller's playlist untouched, so after a call submitting `exSrcSong`
the playlist still does not contain it. -/
theorem tidal_plex_add_no_in_memory_append :
    (tidal_add_songs_to_playlist exEmptyPlaylist [exSrcSong]).1.songs = [] ∧
    exSrcSong ∉ (tidal_add_songs_to_playlist exEmptyPlaylist [exSrcSong]).1.songs ∧
    (plex_add_songs_to_playlist exEmptyPlaylist [exSrcSong]).1 = exEmptyPlaylist := by
  refine ⟨rfl, ?_, rfl⟩
  intro h
  simp [tidal_add_songs_to_playlist, exEmptyPlaylist] at h

/-- C6 (amended): only the YtMusic client appends the submitted songs to the
in-memory playlist — it does so before the remote request, so the caller's
playlist contains each submitted song (and keeps every previous song)
whatever the remote outcome, including across the duplicate-bisection
retries; the Tidal and Plex clients never modify the in-memory playlist, so
after their calls the caller's playlist value is exactly what it was. -/
theorem add_songs_in_memory_effect (reply : List Song → YtEditReply)
    (playlist : Playlist) (songs : List Song) :
    (∀ s ∈ songs,
      s ∈ (yt_music_add_songs_to_playlist reply playlist songs).1.songs) ∧
    (∀ x ∈ playlist.songs,
      x ∈ (yt_music_add_songs_to_playlist reply playlist songs).1.songs) ∧
    (tidal_add_songs_to_playlist playlist songs).1 = playlist ∧
    (plex_add_songs_to_playlist playlist songs).1 = playlist := by
  refine ⟨?_, ?_, ?_, rfl⟩
  · intro s hs
    rw [yt_music_add_songs_to_playlist.eq_def]
    have hs2 : s ∈ playlist.songs ++ songs := List.mem_append_right _ hs
    cases hr : reply songs with
    | success => simpa using hs2
    | alreadyInPlaylistToast => simpa using hs2
    | failed => simpa using hs2
    | duplicatesDialog =>
      dsimp only
      by_cases hlen : 1 < songs.length
      · rw [dif_pos hlen]
        have h1 := yt_add_keeps reply (songs.take (songs.length / 2)).length
          { playlist with songs := playlist.songs ++ songs }
          (songs.take (songs.length / 2)) le_rfl s hs2
        by_cases hok : (yt_music_add_songs_to_playlist reply
            { playlist with songs := playlist.songs ++ songs }
            (songs.take (songs.length / 2))).2
        · rw [if_pos hok]
          exact yt_add_keeps reply (songs.drop (songs.length / 2)).length _
            (songs.drop (songs.length / 2)) le_rfl s h1
        · rw [if_neg hok]
          exact h1
      · rw [dif_neg hlen]
        simpa using hs2
  · intro x hx
    exact yt_add_keeps reply songs.length playlist songs le_rfl x hx
  · rw [tidal_add_songs_to_playlist]
    by_cases h : songs.isEmpty <;> simp [h]

/-- C6 witness: the amended in-memory effect evaluated on a concrete
playlist, one submitted song and a duplicates-dialog reply. -/
theorem add_songs_in_memory_effect_witness :
    exSrcSong ∈ (yt_music_add_songs_to_playlist (fun _ => YtEditReply.duplicatesDialog)
      exEmptyPlaylist [exSrcSong]).1.songs ∧
    (tidal_add_songs_to_playlist exEmptyPlaylist [exSrcSong]).1 = exEmptyPlaylist :=
  ⟨(add_songs_in_memory_effect (fun _ => YtEditReply.duplicatesDialog)
      exEmptyPlaylist [exSrcSong]).1 exSrcSong (by decide),
   (add_songs_in_memory_effect (fun _ => YtEditReply.duplicatesDialog)
      exEmptyPlaylist [exSrcSong]).2.2.1⟩

/-! ## C4: search pacing -/

/-- The pacing steps can also be peeled off at the end of a run. -/
lemma pace_run_snoc :
    ∀ (n : Nat) (st : PacingState),
      pace_run (n + 1) st =
        ((pace_step (pace_run n st).1).1,
         (pace_run n st).2 ++ (pace_step (pace_run n st).1).2.toList)
  | 0, st => by simp [pace_run]
  | n + 1, st => by
    rw [show n + 1 + 1 = (n + 1) + 1 from rfl]
    conv =>
      lhs
      rw [pace_run]
    rw [pace_run_snoc n (pace_step st).1]
    conv =>
      rhs
      rw [pace_run]
    simp [List.append_assoc]

/-- Pacing state is carried from one batch of counted searches into the
next: running `m` then `n` counted searches continues from the state the
first `m` left behind. -/
lemma pace_run_add (m n : Nat) (st : PacingState) :
    pace_run (m + n) st =
      ((pace_run n (pace_run m st).1).1,
       (pace_run m st).2 ++ (pace_run n (pace_run m st).1).2) := by
  induction n with
  | zero => simp [pace_run]
  | succ k ih =>
    rw [show m + (k + 1) = (m + k) + 1 from rfl, pace_run_snoc, ih,
      pace_run_snoc k (pace_run m st).1]
    simp [List.append_assoc]

/-- From the process-initial state, `n` counted searches leave the counter at
`n` and the cooldown at `180 + 60·(n/200)` seconds, having slept after every
200th search for `180, 240, 300, …` seconds. -/
lemma pace_run_from_initial (n : Nat) :
    pace_run n initial_pacing_state =
      (⟨n, 180 + 60 * (n / 200)⟩,
       (List.range (n / 200)).map (fun j => 180 + 60 * j)) := by
  induction n with
  | zero => simp [pace_run, initial_pacing_state]
  | succ k ih =>
    rw [pace_run_snoc, ih]
    by_cases hdvd : (200 : Nat) ∣ k + 1
    · have hmod : (k + 1) % 200 = 0 := by omega
      have hq : (k + 1) / 200 = k / 200 + 1 := by omega
      rw [hq]
      simp [pace_step, hmod, List.range_succ]
      omega
    · have hmod : (k + 1) % 200 ≠ 0 := by omega
      have hq : (k + 1) / 200 = k / 200 := by omega
      rw [hq]
      simp [pace_step, hmod]

/-- The search loop paces by iterating `pace_step`: its final pacing state
and sleeps are those of some number of counted searches from its input
state. -/
lemma phase1_pace_ex (cmp : Song → Song → Bool) (searchFn : Song → Option Song)
    (isYt : Bool) (dstSongs : List Song) :
    ∀ (songs : List Song) (pace : PacingState), ∃ k,
      (phase1 cmp searchFn isYt dstSongs songs pace).pace = (pace_run k pace).1 ∧
      (phase1 cmp searchFn isYt dstSongs songs pace).sleeps = (pace_run k pace).2
  | [], pace => ⟨0, rfl, rfl⟩
  | s :: rest, pace => by
    rw [phase1]
    by_cases hc : list_contains cmp dstSongs s
    · rw [if_pos hc]
      exact phase1_pace_ex cmp searchFn isYt dstSongs rest pace
    · rw [if_neg hc]
      cases isYt with
      | true =>
        obtain ⟨k, hk1, hk2⟩ :=
          phase1_pace_ex cmp searchFn true dstSongs rest (pace_step pace).1
        refine ⟨k + 1, ?_, ?_⟩ <;>
          · cases hs : searchFn s <;>
              simp [pace_run, hk1, hk2]
      | false =>
        obtain ⟨k, hk1, hk2⟩ :=
          phase1_pace_ex cmp searchFn false dstSongs rest pace
        refine ⟨k, ?_, ?_⟩ <;>
          · cases hs : searchFn s <;>
              simp [hk1, hk2]

/-- The per-playlist body paces by iterating `pace_step`. -/
lemma sync_body_pace_ex (cmp : Song → Song → Bool) (searchFn : Song → Option Song)
    (isYt likeAll : Bool) (dstLikes : List Song) (srcSongs : List Song)
    (dstPl : Playlist) (pace : PacingState) : ∃ k,
      (sync_body cmp searchFn isYt likeAll dstLikes srcSongs dstPl pace).pace =
        (pace_run k pace).1 ∧
      (sync_body cmp searchFn isYt likeAll dstLikes srcSongs dstPl pace).sleeps =
        (pace_run k pace).2 := by
  obtain ⟨k, hk1, hk2⟩ := phase1_pace_ex cmp searchFn isYt dstPl.songs
    (dedup_songs srcSongs) pace
  refine ⟨k, ?_, ?_⟩ <;>
    · rw [sync_body]
      by_cases hf : (phase1 cmp searchFn isYt dstPl.songs
          (dedup_songs srcSongs) pace).found.isEmpty <;>
        simp [hf, hk1, hk2]

/-- The main loop paces by iterating `pace_step`. -/
lemma sync_loop_pace_ex (cmp : Song → Song → Bool) (searchFn : Song → Option Song)
    (isYt likeAll : Bool) (dstLikes : List Song) (newOwner : Option String) :
    ∀ (sps dst : List Playlist) (pace : PacingState), ∃ k,
      (sync_loop cmp searchFn isYt likeAll dstLikes newOwner sps dst pace).pace =
        (pace_run k pace).1 ∧
      (sync_loop cmp searchFn isYt likeAll dstLikes newOwner sps dst pace).sleeps =
        (pace_run k pace).2
  | [], dst, pace => ⟨0, rfl, rfl⟩
  | sp :: rest, dst, pace => by
    rw [sync_loop]
    by_cases hskip : sp.name ∈ SKIPPED_PLAYLISTS ∨ sp.songs = []
    · rw [if_pos hskip]
      exact sync_loop_pace_ex cmp searchFn isYt likeAll dstLikes newOwner rest dst pace
    · rw [if_neg hskip]
      obtain ⟨k1, hb1, hb2⟩ := sync_body_pace_ex cmp searchFn isYt likeAll dstLikes
        sp.songs (match (find_remove_by_name sp.name dst).1 with
          | some p => p
          | none => created_playlist newOwner sp.name) pace
      obtain ⟨k2, hr1, hr2⟩ := sync_loop_pace_ex cmp searchFn isYt likeAll dstLikes
        newOwner rest (find_remove_by_name sp.name dst).2
        (sync_body cmp searchFn isYt likeAll dstLikes sp.songs
          (match (find_remove_by_name sp.name dst).1 with
            | some p => p
            | none => created_playlist newOwner sp.name) pace).pace
      refine ⟨k1 + k2, ?_, ?_⟩
      · rw [pace_run_add]
        simpa [hb1] using hr1
      · rw [pace_run_add]
        simp [hb2, hb1] at hr2 ⊢
        rw [hr2]

/-- C4 (amended): the pacing state — the search counter and the growing
cooldown duration — is held in two process-global `static mut` items
initialized once per process to 0 and 180 seconds, not freshly per
orchestrator run: a later run in the same process continues from the state
the previous run left (first conjunct: composing runs threads the state and
concatenates the sleeps). From the process-initial state, every 200th
counted search (counted cumulatively across the whole process, only while
the destination platform is YtMusic) triggers a cooldown sleep whose
duration starts at 180 seconds and grows by 60 seconds per trigger (second
conjunct), and every orchestrator run's pacing output is exactly some number
of such counted steps applied to the state it started with (third
conjunct). -/
theorem pacing_state_process_global :
    (∀ m n st, pace_run (m + n) st =
      ((pace_run n (pace_run m st).1).1,
       (pace_run m st).2 ++ (pace_run n (pace_run m st).1).2)) ∧
    (∀ n, pace_run n initial_pacing_state =
      (⟨n, 180 + 60 * (n / 200)⟩,
       (List.range (n / 200)).map (fun j => 180 + 60 * j))) ∧
    (∀ cmp searchFn isYt likeAll dstLikes newOwner skip dstOwner src dst st,
      ∃ k,
        (synchronize_playlists cmp searchFn isYt likeAll dstLikes newOwner
          skip dstOwner src dst st).pace = (pace_run k st).1 ∧
        (synchronize_playlists cmp searchFn isYt likeAll dstLikes newOwner
          skip dstOwner src dst st).sleeps = (pace_run k st).2) := by
  refine ⟨pace_run_add, pace_run_from_initial, ?_⟩
  intro cmp searchFn isYt likeAll dstLikes newOwner skip dstOwner src dst st
  obtain ⟨k, h1, h2⟩ := sync_loop_pace_ex cmp searchFn isYt likeAll dstLikes newOwner
    (owner_filter dstOwner dst (filter_skip_names skip src)).2.1
    (owner_filter dstOwner dst (filter_skip_names skip src)).1 st
  exact ⟨k, h1, h2⟩

/-- C4 (counterexample): the pacing state is not scoped to a single run. A
run that performs 100 counted searches sleeps never; a second identical run
in the same process starts from the counter the first left behind (the
`static mut` globals persist), so its 100th search is the process's 200th
and triggers a 180-second cooldown — under the claim the second run would
start with a fresh counter and sleep never. -/
theorem pacing_state_reused_across_runs :
    (synchronize_playlists cmpEq (fun _ => none) true false [] none [] "u"
      [exBigSrc] [exBigDst] initial_pacing_state).sleeps = [] ∧
    (synchronize_playlists cmpEq (fun _ => none) true false [] none [] "u"
      [exBigSrc]
      (state_after (synchronize_playlists cmpEq (fun _ => none) true false []
        none [] "u" [exBigSrc] [exBigDst] initial_pacing_state))
      (synchronize_playlists cmpEq (fun _ => none) true false [] none [] "u"
        [exBigSrc] [exBigDst] initial_pacing_state).pace).sleeps = [180] ∧
    (synchronize_playlists cmpEq (fun _ => none) true false [] none [] "u"
      [exBigSrc]
      (state_after (synchronize_playlists cmpEq (fun _ => none) true false []
        none [] "u" [exBigSrc] [exBigDst] initial_pacing_state))
      initial_pacing_state).sleeps = [] := by
  refine ⟨?_, ?_, ?_⟩ <;> rfl

/-! ## Orchestrator filter lemmas -/

/-- A successful name lookup returns a member with that name. -/
lemma find_remove_some (nm : String) :
    ∀ (l : List Playlist) (p : Playlist),
      (find_remove_by_name nm l).1 = some p → p ∈ l ∧ p.name = nm
  | [], p, h => by simp [find_remove_by_name] at h
  | q :: rest, p, h => by
    rw [find_remove_by_name] at h
    by_cases hq : q.name = nm
    · rw [if_pos hq] at h
      cases h
      exact ⟨List.mem_cons_self _ _, hq⟩
    · rw [if_neg hq] at h
      obtain ⟨hmem, hnm⟩ := find_remove_some nm rest p h
      exact ⟨List.mem_cons_of_mem _ hmem, hnm⟩

/-- The remainder of a name lookup is a sublist of the input. -/
lemma find_remove_rest_sublist (nm : String) :
    ∀ l : List Playlist, (find_remove_by_name nm l).2.Sublist l
  | [] => by simp [find_remove_by_name]
  | q :: rest => by
    rw [find_remove_by_name]
    by_cases hq : q.name = nm
    · rw [if_pos hq]
      exact (List.sublist_cons_self q rest)
    · rw [if_neg hq]
      exact (find_remove_rest_sublist nm rest).cons₂ q

/-- A lookup on the head's name takes the head. -/
lemma find_remove_head (nm : String) (p : Playlist) (rest : List Playlist)
    (h : p.name = nm) : find_remove_by_name nm (p :: rest) = (some p, rest) := by
  rw [find_remove_by_name, if_pos h]

/-- Removing the first playlist with a name keeps a sublist. -/
lemma remove_first_sublist (nm : String) :
    ∀ l : List Playlist, (remove_first_by_name nm l).Sublist l
  | [] => by simp [remove_first_by_name]
  | q :: rest => by
    rw [remove_first_by_name]
    by_cases hq : q.name = nm
    · rw [if_pos hq]
      exact List.sublist_cons_self q rest
    · rw [if_neg hq]
      exact (remove_first_sublist nm rest).cons₂ q

/-- With pairwise-distinct names, removing the first playlist with a name
removes every playlist with that name. -/
lemma remove_first_eq_filter (nm : String) :
    ∀ l : List Playlist, (l.map Playlist.name).Nodup →
      remove_first_by_name nm l = l.filter (fun p => !decide (p.name = nm))
  | [], _ => rfl
  | q :: rest, hnodup => by
    rw [List.map_cons, List.nodup_cons] at hnodup
    obtain ⟨hq, hrest⟩ := hnodup
    rw [remove_first_by_name]
    by_cases hqn : q.name = nm
    · rw [if_pos hqn]
      symm
      rw [List.filter_cons]
      simp only [hqn, decide_True, Bool.not_true, Bool.false_eq_true, if_false]
      apply List.filter_eq_self.mpr
      intro p hp
      simp only [Bool.not_eq_true', decide_eq_false_iff_not]
      intro hpn
      exact hq (List.mem_map.mpr ⟨p, hp, by rw [hpn, hqn]⟩)
    · rw [if_neg hqn, remove_first_eq_filter nm rest hrest, List.filter_cons]
      simp [hqn]

/-- The destination playlists kept by the owner filter are exactly the owned
ones. -/
lemma owner_filter_kept (o : String) :
    ∀ (dstL srcL : List Playlist),
      (owner_filter o dstL srcL).1 = dstL.filter (fun d => decide (d.owner = some o))
  | [], _ => rfl
  | d :: rest, srcL => by
    rw [owner_filter]
    by_cases hd : d.owner = some o
    · rw [if_pos hd]
      dsimp only
      rw [owner_filter_kept o rest srcL, List.filter_cons]
      simp [hd]
    · rw [if_neg hd]
      dsimp only
      rw [owner_filter_kept o rest (remove_first_by_name d.name srcL), List.filter_cons]
      simp [hd]

/-- The destination playlists dropped by the owner filter are exactly the
non-owned ones. -/
lemma owner_filter_dropped (o : String) :
    ∀ (dstL srcL : List Playlist),
      (owner_filter o dstL srcL).2.2 =
        dstL.filter (fun d => !decide (d.owner = some o))
  | [], _ => rfl
  | d :: rest, srcL => by
    rw [owner_filter]
    by_cases hd : d.owner = some o
    · rw [if_pos hd]
      dsimp only
      rw [owner_filter_dropped o rest srcL, List.filter_cons]
      simp [hd]
    · rw [if_neg hd]
      dsimp only
      rw [owner_filter_dropped o rest (remove_first_by_name d.name srcL), List.filter_cons]
      simp [hd]

/-- The surviving source playlists of the owner filter form a sublist. -/
lemma owner_filter_src_sublist (o : String) :
    ∀ (dstL srcL : List Playlist), (owner_filter o dstL srcL).2.1.Sublist srcL
  | [], _ => List.Sublist.refl _
  | d :: rest, srcL => by
    rw [owner_filter]
    by_cases hd : d.owner = some o
    · rw [if_pos hd]
      dsimp only
      exact owner_filter_src_sublist o rest srcL
    · rw [if_neg hd]
      dsimp only
      exact (owner_filter_src_sublist o rest _).trans (remove_first_sublist _ _)

/-- With pairwise-distinct source names, the owner filter leaves exactly the
source playlists sharing no name with a non-owned destination playlist. -/
lemma owner_filter_src_eq (o : String) :
    ∀ (dstL srcL : List Playlist), (srcL.map Playlist.name).Nodup →
      (owner_filter o dstL srcL).2.1 =
        srcL.filter (fun p => dstL.all
          (fun d => decide (d.owner = some o) || !decide (d.name = p.name)))
  | [], srcL, _ => by simp [owner_filter]
  | d :: rest, srcL, hnodup => by
    rw [owner_filter]
    by_cases hd : d.owner = some o
    · rw [if_pos hd]
      dsimp only
      rw [owner_filter_src_eq o rest srcL hnodup]
      apply List.filter_congr
      intro p _
      simp [hd]
    · rw [if_neg hd]
      dsimp only
      rw [owner_filter_src_eq o rest _
        (((remove_first_sublist d.name srcL).map Playlist.name).nodup hnodup),
        remove_first_eq_filter d.name srcL hnodup, List.filter_filter]
      apply List.filter_congr
      intro p _
      simp only [List.all_cons, hd, decide_False, Bool.false_or]
      rw [Bool.and_comm]
      congr 1
      simp [eq_comm]

/-! ## Main-loop lemmas -/

/-- The per-playlist body preserves the destination playlist's name. -/
lemma sync_body_name (cmp : Song → Song → Bool) (searchFn : Song → Option Song)
    (isYt likeAll : Bool) (dstLikes : List Song) (srcSongs : List Song)
    (dstPl : Playlist) (pace : PacingState) :
    (sync_body cmp searchFn isYt likeAll dstLikes srcSongs dstPl pace).playlist.name
      = dstPl.name := by
  rw [sync_body]
  by_cases hf : (phase1 cmp searchFn isYt dstPl.songs
      (dedup_songs srcSongs) pace).found.isEmpty <;> simp [hf]

/-- Every created name belongs to a non-skipped, non-empty source playlist
that found no same-named destination playlist. -/
lemma sync_loop_creates_mem (cmp : Song → Song → Bool)
    (searchFn : Song → Option Song) (isYt likeAll : Bool) (dstLikes : List Song)
    (newOwner : Option String) :
    ∀ (sps dst : List Playlist) (pace : PacingState),
      ∀ n ∈ (sync_loop cmp searchFn isYt likeAll dstLikes newOwner sps dst pace).creates,
        ∃ p ∈ sps, p.name = n ∧ p.name ∉ SKIPPED_PLAYLISTS ∧ p.songs ≠ []
  | [], dst, pace, n, hn => by simp [sync_loop] at hn
  | sp :: rest, dst, pace, n, hn => by
    rw [sync_loop] at hn
    by_cases hskip : sp.name ∈ SKIPPED_PLAYLISTS ∨ sp.songs = []
    · rw [if_pos hskip] at hn
      obtain ⟨p, hp, h⟩ := sync_loop_creates_mem cmp searchFn isYt likeAll dstLikes
        newOwner rest dst pace n hn
      exact ⟨p, List.mem_cons_of_mem _ hp, h⟩
    · rw [if_neg hskip] at hn
      push_neg at hskip
      dsimp only at hn
      rcases hfr : (find_remove_by_name sp.name dst).1 with _ | q
      · rw [hfr] at hn
        dsimp only at hn
        rcases List.mem_cons.mp hn with rfl | hn2
        · exact ⟨sp, List.mem_cons_self _ _, rfl, hskip.1, hskip.2⟩
        · obtain ⟨p, hp, h⟩ := sync_loop_creates_mem cmp searchFn isYt likeAll dstLikes
            newOwner rest (find_remove_by_name sp.name dst).2 _ n hn2
          exact ⟨p, List.mem_cons_of_mem _ hp, h⟩
      · rw [hfr] at hn
        dsimp only at hn
        obtain ⟨p, hp, h⟩ := sync_loop_creates_mem cmp searchFn isYt likeAll dstLikes
          newOwner rest (find_remove_by_name sp.name dst).2 _ n hn
        exact ⟨p, List.mem_cons_of_mem _ hp, h⟩

/-- Every add call of the loop targets a destination playlist taken from the
input list by exact name, or one created in the same run. -/
lemma sync_loop_adds_targets (cmp : Song → Song → Bool)
    (searchFn : Song → Option Song) (isYt likeAll : Bool) (dstLikes : List Song)
    (newOwner : Option String) :
    ∀ (sps dst : List Playlist) (pace : PacingState),
      ∀ a ∈ (sync_loop cmp searchFn isYt likeAll dstLikes newOwner sps dst pace).adds,
        (∃ d ∈ dst, d.name = a.1) ∨
        a.1 ∈ (sync_loop cmp searchFn isYt likeAll dstLikes newOwner sps dst pace).creates
  | [], dst, pace, a, ha => by simp [sync_loop] at ha
  | sp :: rest, dst, pace, a, ha => by
    rw [sync_loop] at ha
    rw [sync_loop]
    by_cases hskip : sp.name ∈ SKIPPED_PLAYLISTS ∨ sp.songs = []
    · rw [if_pos hskip] at ha ⊢
      exact sync_loop_adds_targets cmp searchFn isYt likeAll dstLikes newOwner
        rest dst pace a ha
    · rw [if_neg hskip] at ha ⊢
      dsimp only at ha ⊢
      rcases hfr : (find_remove_by_name sp.name dst).1 with _ | q
      all_goals rw [hfr] at ha
      all_goals dsimp only at ha ⊢
      · rcases List.mem_append.mp ha with hb | hrec
        · obtain ⟨batch, _, heq⟩ := List.mem_map.mp hb
          right
          rw [← heq]
          exact List.mem_cons_self _ _
        · rcases sync_loop_adds_targets cmp searchFn isYt likeAll dstLikes newOwner
            rest (find_remove_by_name sp.name dst).2 _ a hrec with ⟨d, hd, hdn⟩ | hc
          · exact Or.inl ⟨d, (find_remove_rest_sublist sp.name dst).mem hd, hdn⟩
          · exact Or.inr (List.mem_cons_of_mem _ hc)
      · rcases List.mem_append.mp ha with hb | hrec
        · obtain ⟨batch, _, heq⟩ := List.mem_map.mp hb
          obtain ⟨hmem, hname⟩ := find_remove_some sp.name dst q hfr
          exact Or.inl ⟨q, hmem, by rw [hname, ← heq]⟩
        · rcases sync_loop_adds_targets cmp searchFn isYt likeAll dstLikes newOwner
            rest (find_remove_by_name sp.name dst).2 _ a hrec with ⟨d, hd, hdn⟩ | hc
          · exact Or.inl ⟨d, (find_remove_rest_sublist sp.name dst).mem hd, hdn⟩
          · exact Or.inr hc

/-- C7 (counterexample): a source playlist whose name differs from the fixed
entry "Liked Songs" only in letter case is not dropped — the fixed-set check
is an exact string match — and the playlist is created on the destination. -/
theorem fixed_skip_list_case_sensitive :
    "Liked Songs" ∈ SKIPPED_PLAYLISTS ∧
    to_lowercase exLikedLower.name = to_lowercase "Liked Songs" ∧
    (synchronize_playlists cmpEq (fun _ => none) false false [] none [] "u"
      [exLikedLower] [] initial_pacing_state).creates = ["liked songs"] := by
  refine ⟨by decide, by decide, ?_⟩
  rfl

/-- C7 (amended): the orchestrator drops every source playlist whose name
case-insensitively matches an entry of the caller-supplied skip-list, and
every source playlist whose name exactly (case-sensitively) equals an entry
of the fixed set of platform-generated playlist names; a dropped playlist is
never created on the destination — every created name belongs to a source
playlist that passes both checks (and is non-empty). A source playlist whose
name differs from a fixed-set entry only in letter case is NOT dropped by
the fixed set. -/
theorem skip_filters_drop_playlists (cmp : Song → Song → Bool)
    (searchFn : Song → Option Song) (isYt likeAll : Bool) (dstLikes : List Song)
    (newOwner : Option String) (skip : List String) (dstOwner : String)
    (src dst : List Playlist) (pace : PacingState) :
    ∀ n ∈ (synchronize_playlists cmp searchFn isYt likeAll dstLikes newOwner
        skip dstOwner src dst pace).creates,
      ∃ p ∈ src, p.name = n ∧ p.songs ≠ [] ∧ p.name ∉ SKIPPED_PLAYLISTS ∧
        ∀ sk ∈ skip, ¬ to_lowercase p.name = to_lowercase sk := by
  intro n hn
  rw [synchronize_playlists] at hn
  dsimp only at hn
  obtain ⟨p, hp, hpn, hpskip, hpsongs⟩ := sync_loop_creates_mem cmp searchFn isYt
    likeAll dstLikes newOwner _ _ pace n hn
  have hp1 : p ∈ filter_skip_names skip src :=
    (owner_filter_src_sublist dstOwner dst _).mem hp
  rw [filter_skip_names] at hp1
  obtain ⟨hpsrc, hpred⟩ := List.mem_filter.mp hp1
  refine ⟨p, hpsrc, hpn, hpsongs, hpskip, ?_⟩
  intro sk hsk heq
  simp only [Bool.not_eq_true', List.any_eq_false] at hpred
  have := hpred sk hsk
  exact this (by simp [heq])

/-- C7 witness: the amended drop property instantiated on a concrete run
whose single created name is "liked songs". -/
theorem skip_filters_drop_playlists_witness :
    ∃ p ∈ [exLikedLower], p.name = "liked songs" ∧ p.songs ≠ [] ∧
      p.name ∉ SKIPPED_PLAYLISTS ∧
      ∀ sk ∈ ([] : List String), ¬ to_lowercase p.name = to_lowercase sk :=
  skip_filters_drop_playlists cmpEq (fun _ => none) false false [] none [] "u"
    [exLikedLower] [] initial_pacing_state "liked songs" (by decide)

/-! ## C1 groundwork: search/collect loop lemmas -/

/-- Membership form of `list_contains`. -/
lemma list_contains_iff (cmp : Song → Song → Bool) (l : List Song) (x : Song) :
    list_contains cmp l x = true ↔ ∃ e ∈ l, cmp e x = true := by
  simp [list_contains, List.any_eq_true]

/-- `contains` over an appended list. -/
lemma list_contains_append (cmp : Song → Song → Bool) (a b : List Song) (x : Song) :
    list_contains cmp (a ++ b) x = (list_contains cmp a x || list_contains cmp b x) := by
  simp [list_contains, List.any_append]

/-- The songs found by the search loop: the source songs that pass the
membership pre-check, resolved through the search, in order. The pacing
state does not influence them. -/
lemma phase1_found_eq (cmp : Song → Song → Bool) (f : Song → Option Song)
    (isYt : Bool) (dstSongs : List Song) :
    ∀ (songs : List Song) (pace : PacingState),
      (phase1 cmp f isYt dstSongs songs pace).found
        = (songs.filter (fun s => ! list_contains cmp dstSongs s)).filterMap f
  | [], _ => rfl
  | s :: rest, pace => by
    rw [phase1, List.filter_cons]
    by_cases hc : list_contains cmp dstSongs s
    · rw [if_pos hc]
      simp only [hc, Bool.not_true, Bool.false_eq_true, if_false]
      exact phase1_found_eq cmp f isYt dstSongs rest pace
    · rw [if_neg hc]
      have hnc : (! list_contains cmp dstSongs s) = true := by
        simp [Bool.not_eq_true] at hc
        simp [hc]
      rw [if_pos hnc, List.filterMap_cons]
      cases hf : f s
      · simp only [hf]
        exact phase1_found_eq cmp f isYt dstSongs rest _
      · simp only [hf]
        rw [phase1_found_eq cmp f isYt dstSongs rest _]

/-- The batch-collection loop only appends to its accumulator. -/
lemma phase2_mono (cmp : Song → Song → Bool) (dstSongs : List Song) :
    ∀ (rest acc : List Song) (x : Song), x ∈ acc →
      x ∈ phase2 cmp dstSongs rest acc
  | [], _, _, hx => hx
  | d :: rest, acc, x, hx => by
    rw [phase2]
    by_cases h1 : list_contains cmp dstSongs d
    · rw [if_pos h1]
      exact phase2_mono cmp dstSongs rest acc x hx
    · rw [if_neg h1]
      by_cases h2 : list_contains cmp acc d
      · rw [if_pos h2]
        exact phase2_mono cmp dstSongs rest acc x hx
      · rw [if_neg h2]
        exact phase2_mono cmp dstSongs rest (acc ++ [d]) x (List.mem_append_left _ hx)

/-- With a reflexive `compare`, every found song is equivalent to a song of
the destination playlist or of the collected batch. -/
lemma phase2_covered (cmp : Song → Song → Bool) (dstSongs : List Song)
    (hrefl : ∀ s, cmp s s = true) :
    ∀ (rest acc : List Song) (d : Song), d ∈ rest →
      list_contains cmp dstSongs d = true ∨
      list_contains cmp (phase2 cmp dstSongs rest acc) d = true
  | [], _, d, hd => absurd hd (List.not_mem_nil d)
  | e :: rest, acc, d, hd => by
    rw [phase2]
    by_cases h1 : list_contains cmp dstSongs e
    · rw [if_pos h1]
      rcases List.mem_cons.mp hd with rfl | hd2
      · exact Or.inl h1
      · exact phase2_covered cmp dstSongs hrefl rest acc d hd2
    · rw [if_neg h1]
      by_cases h2 : list_contains cmp acc e
      · rw [if_pos h2]
        rcases List.mem_cons.mp hd with rfl | hd2
        · right
          obtain ⟨w, hw, hcw⟩ := (list_contains_iff cmp acc d).mp h2
          exact (list_contains_iff cmp _ d).mpr
            ⟨w, phase2_mono cmp dstSongs rest acc w hw, hcw⟩
        · exact phase2_covered cmp dstSongs hrefl rest acc d hd2
      · rw [if_neg h2]
        rcases List.mem_cons.mp hd with rfl | hd2
        · right
          refine (list_contains_iff cmp _ d).mpr ⟨d, ?_, hrefl d⟩
          exact phase2_mono cmp dstSongs rest (acc ++ [d]) d
            (List.mem_append_right _ (List.mem_singleton.mpr rfl))
        · exact phase2_covered cmp dstSongs hrefl rest (acc ++ [e]) d hd2

/-- When every found song is already in the destination playlist, the
batch-collection loop queues nothing. -/
lemma phase2_nil_of_covered (cmp : Song → Song → Bool) (dstSongs : List Song) :
    ∀ (rest acc : List Song),
      (∀ d ∈ rest, list_contains cmp dstSongs d = true) →
      phase2 cmp dstSongs rest acc = acc
  | [], _, _ => rfl
  | e :: rest, acc, hall => by
    rw [phase2, if_pos (hall e (List.mem_cons_self _ _))]
    exact phase2_nil_of_covered cmp dstSongs rest acc
      (fun d hd => hall d (List.mem_cons_of_mem _ hd))

/-- Closed form of the per-playlist body in terms of the found-song formula:
the body does nothing visible when no search succeeds, and otherwise appends
the collected batch and submits it (with the like list when enabled). -/
lemma sync_body_eq (cmp : Song → Song → Bool) (f : Song → Option Song)
    (isYt likeAll : Bool) (L S : List Song) (pl : Playlist) (pace : PacingState) :
    sync_body cmp f isYt likeAll L S pl pace =
      (if body_found cmp f S pl.songs = [] then
        ⟨pl, [], [],
         (phase1 cmp f isYt pl.songs (dedup_songs S) pace).pace,
         (phase1 cmp f isYt pl.songs (dedup_songs S) pace).sleeps⟩
      else
        ⟨{ pl with songs :=
             pl.songs ++ phase2 cmp pl.songs (body_found cmp f S pl.songs) [] },
         [phase2 cmp pl.songs (body_found cmp f S pl.songs) []],
         (if likeAll then
            [(phase2 cmp pl.songs (body_found cmp f S pl.songs) []).filter
              (fun s => ! list_contains cmp L s)]
          else []),
         (phase1 cmp f isYt pl.songs (dedup_songs S) pace).pace,
         (phase1 cmp f isYt pl.songs (dedup_songs S) pace).sleeps⟩) := by
  rw [sync_body]
  have hf : (phase1 cmp f isYt pl.songs (dedup_songs S) pace).found
      = body_found cmp f S pl.songs :=
    phase1_found_eq cmp f isYt pl.songs (dedup_songs S) pace
  by_cases hF : body_found cmp f S pl.songs = []
  · have hempty : (phase1 cmp f isYt pl.songs (dedup_songs S) pace).found.isEmpty
        = true := by
      rw [hf, hF]
      rfl
    rw [if_pos hempty, if_pos hF]
  · have hnonempty :
        ¬ (phase1 cmp f isYt pl.songs (dedup_songs S) pace).found.isEmpty = true := by
      rw [hf]
      simpa [List.isEmpty_iff] using hF
    rw [if_neg hnonempty, if_neg hF, hf]

/-- With a reflexive `compare`, running the per-playlist body a second time
against the playlist state the first run left behind changes nothing: the
second body's batch-collection queues nothing, so any `addSongsToPlaylist`
batch it submits is empty, any `addLikes` list is empty, and the playlist is
unchanged. The second run's pacing, likes snapshot and configuration flags
may differ. -/
lemma sync_body_idem (cmp : Song → Song → Bool) (f : Song → Option Song)
    (hrefl : ∀ s, cmp s s = true)
    (isYt1 likeAll1 : Bool) (L1 : List Song) (pace1 : PacingState)
    (isYt2 likeAll2 : Bool) (L2 : List Song) (pace2 : PacingState)
    (S : List Song) (pl : Playlist) :
    (sync_body cmp f isYt2 likeAll2 L2 S
        (sync_body cmp f isYt1 likeAll1 L1 S pl pace1).playlist pace2).playlist =
      (sync_body cmp f isYt1 likeAll1 L1 S pl pace1).playlist ∧
    (∀ t ∈ (sync_body cmp f isYt2 likeAll2 L2 S
        (sync_body cmp f isYt1 likeAll1 L1 S pl pace1).playlist pace2).addBatches,
      t = []) ∧
    (∀ t ∈ (sync_body cmp f isYt2 likeAll2 L2 S
        (sync_body cmp f isYt1 likeAll1 L1 S pl pace1).playlist pace2).likeBatches,
      t = []) := by
  by_cases hF1 : body_found cmp f S pl.songs = []
  · -- nothing was found on the first run: the playlist is unchanged and the
    -- second run finds nothing either
    have hb1 : (sync_body cmp f isYt1 likeAll1 L1 S pl pace1).playlist = pl := by
      rw [sync_body_eq, if_pos hF1]
    rw [hb1, sync_body_eq, if_pos hF1]
    exact ⟨rfl, by simp, by simp⟩
  · -- the first run appended its batch T1
    have hb1 : (sync_body cmp f isYt1 likeAll1 L1 S pl pace1).playlist =
        { pl with songs :=
          pl.songs ++ phase2 cmp pl.songs (body_found cmp f S pl.songs) [] } := by
      rw [sync_body_eq, if_neg hF1]
    rw [hb1]
    set T1 := phase2 cmp pl.songs (body_found cmp f S pl.songs) [] with hT1
    -- the found songs of the second run are all already present
    have hcov : ∀ d ∈ body_found cmp f S (pl.songs ++ T1),
        list_contains cmp (pl.songs ++ T1) d = true := by
      intro d hd
      obtain ⟨s, hs, hfs⟩ := List.mem_filterMap.mp hd
      obtain ⟨hsd, hsc⟩ := List.mem_filter.mp hs
      have hsD : (! list_contains cmp pl.songs s) = true := by
        rw [Bool.not_eq_true'] at hsc ⊢
        rw [list_contains_append, Bool.or_eq_false_iff] at hsc
        exact hsc.1
      have hdF1 : d ∈ body_found cmp f S pl.songs :=
        List.mem_filterMap.mpr ⟨s, List.mem_filter.mpr ⟨hsd, hsD⟩, hfs⟩
      rcases phase2_covered cmp pl.songs hrefl
          (body_found cmp f S pl.songs) [] d hdF1 with h | h
      · rw [list_contains_append, h]
        rfl
      · rw [list_contains_append]
        rw [← hT1] at h
        rw [h]
        simp
    have hpl2songs : ({ pl with songs := pl.songs ++ T1 } : Playlist).songs
        = pl.songs ++ T1 := rfl
    by_cases hF2 : body_found cmp f S (pl.songs ++ T1) = []
    · rw [sync_body_eq]
      rw [hpl2songs, if_pos hF2]
      exact ⟨rfl, by simp, by simp⟩
    · have hT2 : phase2 cmp (pl.songs ++ T1)
          (body_found cmp f S (pl.songs ++ T1)) [] = [] :=
        phase2_nil_of_covered cmp (pl.songs ++ T1) _ [] hcov
      rw [sync_body_eq]
      rw [hpl2songs, if_neg hF2]
      refine ⟨?_, ?_, ?_⟩
      · dsimp only
        rw [hT2]
        simp
      · intro t ht
        dsimp only at ht
        rw [hT2] at ht
        simpa using ht
      · intro t ht
        dsimp only at ht
        rw [hT2] at ht
        by_cases hl : likeAll2 = true <;> simp [hl] at ht
        exact ht

/-- C8 (counterexample): the owner filter drops only the FIRST same-named
source playlist. With two source playlists named "Foo" and a destination
"Foo" owned by someone else, the second source "Foo" survives and a
same-named destination playlist is still created. -/
theorem nonowned_same_name_duplicate_created :
    exFooOther.owner ≠ some "u" ∧
    (synchronize_playlists cmpEq (fun _ => none) false false [] none [] "u"
      [exFoo1, exFoo2] [exFooOther] initial_pacing_state).creates = ["Foo"] := by
  refine ⟨by decide, rfl⟩

/-- C8 (amended): destination playlists not owned by the configured
destination account are excluded from destination consideration — every
`addSongsToPlaylist` call targets either a destination playlist owned by the
configured account or a playlist created in the same run, never a non-owned
one. For each non-owned destination playlist the orchestrator drops the
first same-named source playlist; when no two source playlists share a name
this prevents any same-named duplicate from being created, but a second
same-named source playlist would still create one. -/
theorem owner_filter_excludes_nonowned (cmp : Song → Song → Bool)
    (searchFn : Song → Option Song) (isYt likeAll : Bool) (dstLikes : List Song)
    (newOwner : Option String) (skip : List String) (dstOwner : String)
    (src dst : List Playlist) (pace : PacingState) :
    (∀ a ∈ (synchronize_playlists cmp searchFn isYt likeAll dstLikes newOwner
        skip dstOwner src dst pace).adds,
      (∃ d ∈ dst, d.name = a.1 ∧ d.owner = some dstOwner) ∨
      a.1 ∈ (synchronize_playlists cmp searchFn isYt likeAll dstLikes newOwner
        skip dstOwner src dst pace).creates) ∧
    ((src.map Playlist.name).Nodup →
      ∀ d ∈ dst, ¬ d.owner = some dstOwner →
        d.name ∉ (synchronize_playlists cmp searchFn isYt likeAll dstLikes newOwner
          skip dstOwner src dst pace).creates) := by
  constructor
  · intro a ha
    rw [synchronize_playlists] at ha ⊢
    dsimp only at ha ⊢
    rcases sync_loop_adds_targets cmp searchFn isYt likeAll dstLikes newOwner
      _ _ pace a ha with ⟨d, hd, hdn⟩ | hc
    · rw [owner_filter_kept] at hd
      obtain ⟨hmem, howned⟩ := List.mem_filter.mp hd
      exact Or.inl ⟨d, hmem, hdn, of_decide_eq_true howned⟩
    · exact Or.inr hc
  · intro hnodup d hd hdown hmem
    rw [synchronize_playlists] at hmem
    dsimp only at hmem
    obtain ⟨p, hp, hpn, _, _⟩ := sync_loop_creates_mem cmp searchFn isYt likeAll
      dstLikes newOwner _ _ pace d.name hmem
    have hnodup1 : ((filter_skip_names skip src).map Playlist.name).Nodup := by
      refine ((List.Sublist.map Playlist.name ?_).nodup hnodup)
      exact List.filter_sublist src
    rw [owner_filter_src_eq dstOwner dst _ hnodup1] at hp
    obtain ⟨_, hpred⟩ := List.mem_filter.mp hp
    have hall := (List.all_eq_true.mp hpred) d hd
    rcases Bool.or_eq_true_iff.mp hall with howned | hne
    · exact hdown (of_decide_eq_true howned)
    · rw [Bool.not_eq_true', decide_eq_false_iff_not] at hne
      exact hne hpn.symm

/-- C8 witness: the amended target property instantiated on a run issuing
one add call against an owned destination playlist. -/
theorem owner_filter_excludes_nonowned_witness :
    (("P", []) : String × List Song) ∈
      (synchronize_playlists cmpEq exSearch false false [] none [] "u"
        [exC1Src] [exC1Dst] initial_pacing_state).adds ∧
    ((∃ d ∈ [exC1Dst], d.name = (("P", []) : String × List Song).1 ∧
        d.owner = some "u") ∨
      (("P", []) : String × List Song).1 ∈
        (synchronize_playlists cmpEq exSearch false false [] none [] "u"
          [exC1Src] [exC1Dst] initial_pacing_state).creates) :=
  ⟨by decide,
   (owner_filter_excludes_nonowned cmpEq exSearch false false [] none [] "u"
     [exC1Src] [exC1Dst] initial_pacing_state).1 ("P", []) (by decide)⟩


/-! ## C1: second-run idempotence of the main loop -/

/-- The destination playlists the loop never matched form a sublist of its
input. -/
lemma sync_loop_leftover_sublist (cmp : Song → Song → Bool)
    (f : Song → Option Song) (isYt likeAll : Bool) (dstLikes : List Song)
    (newOwner : Option String) :
    ∀ (sps dst : List Playlist) (pace : PacingState),
      (sync_loop cmp f isYt likeAll dstLikes newOwner sps dst pace).dstLeftover.Sublist
        dst
  | [], dst, pace => by
    simp [sync_loop]
  | sp :: rest, dst, pace => by
    rw [sync_loop]
    by_cases hskip : sp.name ∈ SKIPPED_PLAYLISTS ∨ sp.songs = []
    · rw [if_pos hskip]
      exact sync_loop_leftover_sublist cmp f isYt likeAll dstLikes newOwner rest dst pace
    · rw [if_neg hskip]
      dsimp only
      exact (sync_loop_leftover_sublist cmp f isYt likeAll dstLikes newOwner rest
        (find_remove_by_name sp.name dst).2 _).trans
        (find_remove_rest_sublist sp.name dst)

/-- Every playlist the loop processed bears the name of one of its source
playlists. -/
lemma sync_loop_processed_names (cmp : Song → Song → Bool)
    (f : Song → Option Song) (isYt likeAll : Bool) (dstLikes : List Song)
    (newOwner : Option String) :
    ∀ (sps dst : List Playlist) (pace : PacingState),
      ∀ q ∈ (sync_loop cmp f isYt likeAll dstLikes newOwner sps dst pace).processed,
        ∃ p ∈ sps, q.name = p.name
  | [], dst, pace, q, hq => by simp [sync_loop] at hq
  | sp :: rest, dst, pace, q, hq => by
    rw [sync_loop] at hq
    by_cases hskip : sp.name ∈ SKIPPED_PLAYLISTS ∨ sp.songs = []
    · rw [if_pos hskip] at hq
      obtain ⟨p, hp, h⟩ := sync_loop_processed_names cmp f isYt likeAll dstLikes
        newOwner rest dst pace q hq
      exact ⟨p, List.mem_cons_of_mem _ hp, h⟩
    · rw [if_neg hskip] at hq
      dsimp only at hq
      rcases List.mem_cons.mp hq with rfl | hq2
      · refine ⟨sp, List.mem_cons_self _ _, ?_⟩
        rw [sync_body_name]
        rcases hfr : (find_remove_by_name sp.name dst).1 with _ | t
        · rfl
        · exact (find_remove_some sp.name dst t hfr).2
      · obtain ⟨p, hp, h⟩ := sync_loop_processed_names cmp f isYt likeAll dstLikes
          newOwner rest (find_remove_by_name sp.name dst).2 _ q hq2
        exact ⟨p, List.mem_cons_of_mem _ hp, h⟩

/-- An all-quantified disjunction with ownership collapses to a check over
the non-owned playlists. -/
lemma all_owned_or (o : String) (g : Playlist → Bool) :
    ∀ l : List Playlist,
      l.all (fun d => decide (d.owner = some o) || g d)
        = (l.filter (fun d => !decide (d.owner = some o))).all g
  | [] => rfl
  | d :: rest => by
    rw [List.all_cons, List.filter_cons]
    by_cases hd : d.owner = some o
    · simp only [hd, decide_True, Bool.true_or, Bool.true_and, Bool.not_true,
        Bool.false_eq_true, if_false]
      exact all_owned_or o g rest
    · simp only [hd, decide_False, Bool.false_or, Bool.not_false, if_true,
        List.all_cons]
      rw [all_owned_or o g rest]


/-- With a reflexive `compare` and pairwise-distinct source playlist names,
re-running the main loop against the destination state the first run left
behind — the owned playlists it processed followed by the untouched
leftovers, the source list thinned exactly as the second owner filter would
(non-owned processed playlists knock out their same-named source playlist) —
issues no create call and submits only empty batches and empty like lists. -/
lemma sync_loop_idem (cmp : Song → Song → Bool) (f : Song → Option Song)
    (hrefl : ∀ s, cmp s s = true)
    (isYt1 likeAll1 : Bool) (L1 : List Song) (n1 : Option String)
    (isYt2 likeAll2 : Bool) (L2 : List Song) (n2 : Option String)
    (dstOwner : String) :
    ∀ (sps dst : List Playlist) (pace1 pace2 : PacingState),
      (sps.map Playlist.name).Nodup →
      (sync_loop cmp f isYt2 likeAll2 L2 n2
          (run2_input_sps dstOwner
            (sync_loop cmp f isYt1 likeAll1 L1 n1 sps dst pace1) sps)
          (run2_input_dst dstOwner
            (sync_loop cmp f isYt1 likeAll1 L1 n1 sps dst pace1))
          pace2).creates = [] ∧
      (∀ a ∈ (sync_loop cmp f isYt2 likeAll2 L2 n2
          (run2_input_sps dstOwner
            (sync_loop cmp f isYt1 likeAll1 L1 n1 sps dst pace1) sps)
          (run2_input_dst dstOwner
            (sync_loop cmp f isYt1 likeAll1 L1 n1 sps dst pace1))
          pace2).adds, a.2 = []) ∧
      (∀ l ∈ (sync_loop cmp f isYt2 likeAll2 L2 n2
          (run2_input_sps dstOwner
            (sync_loop cmp f isYt1 likeAll1 L1 n1 sps dst pace1) sps)
          (run2_input_dst dstOwner
            (sync_loop cmp f isYt1 likeAll1 L1 n1 sps dst pace1))
          pace2).likeBatches, l = [])
  | [], dst, pace1, pace2, _ => by
    simp [sync_loop, run2_input_sps, run2_input_dst]
  | sp :: rest, dst, pace1, pace2, hnodup => by
    rw [List.map_cons, List.nodup_cons] at hnodup
    obtain ⟨hsp, hrest⟩ := hnodup
    by_cases hskip : sp.name ∈ SKIPPED_PLAYLISTS ∨ sp.songs = []
    · -- the head is skipped by both runs
      have hr1 : sync_loop cmp f isYt1 likeAll1 L1 n1 (sp :: rest) dst pace1
          = sync_loop cmp f isYt1 likeAll1 L1 n1 rest dst pace1 := by
        rw [sync_loop, if_pos hskip]
      rw [hr1]
      have hpredsp : ((sync_loop cmp f isYt1 likeAll1 L1 n1 rest dst
          pace1).processed.filter (fun q => !decide (q.owner = some dstOwner))).all
            (fun q => !decide (q.name = sp.name)) = true := by
        rw [List.all_eq_true]
        intro q hq
        obtain ⟨hqmem, _⟩ := List.mem_filter.mp hq
        obtain ⟨p, hp, hqp⟩ := sync_loop_processed_names cmp f isYt1 likeAll1 L1 n1
          rest dst pace1 q hqmem
        have hne : ¬ q.name = sp.name := by
          intro h
          exact hsp (List.mem_map.mpr ⟨p, hp, by rw [← hqp, h]⟩)
        simp [hne]
      have hsps2 : run2_input_sps dstOwner
          (sync_loop cmp f isYt1 likeAll1 L1 n1 rest dst pace1) (sp :: rest)
          = sp :: run2_input_sps dstOwner
            (sync_loop cmp f isYt1 likeAll1 L1 n1 rest dst pace1) rest := by
        rw [run2_input_sps, run2_input_sps, List.filter_cons, if_pos hpredsp]
      rw [hsps2, sync_loop, if_pos hskip]
      exact sync_loop_idem cmp f hrefl isYt1 likeAll1 L1 n1 isYt2 likeAll2 L2 n2
        dstOwner rest dst pace1 pace2 hrest
    · -- the head is processed
      set fr := find_remove_by_name sp.name dst with hfrdef
      set tgt := (match fr.1 with
        | some p => p
        | none => created_playlist n1 sp.name) with htgtdef
      set b := sync_body cmp f isYt1 likeAll1 L1 sp.songs tgt pace1 with hbdef
      set rr := sync_loop cmp f isYt1 likeAll1 L1 n1 rest fr.2 b.pace with hrrdef
      have hproc_eq : (sync_loop cmp f isYt1 likeAll1 L1 n1 (sp :: rest) dst
          pace1).processed = b.playlist :: rr.processed := by
        rw [sync_loop, if_neg hskip]
      have hleft_eq : (sync_loop cmp f isYt1 likeAll1 L1 n1 (sp :: rest) dst
          pace1).dstLeftover = rr.dstLeftover := by
        rw [sync_loop, if_neg hskip]
      have hbname : b.playlist.name = sp.name := by
        rw [hbdef, sync_body_name, htgtdef]
        rcases hfr1 : fr.1 with _ | t
        · rfl
        · exact (find_remove_some sp.name dst t hfr1).2
      have hrest_names : ∀ q ∈ rr.processed, ¬ q.name = sp.name := by
        intro q hq h
        obtain ⟨p, hp, hqp⟩ := sync_loop_processed_names cmp f isYt1 likeAll1 L1 n1
          rest fr.2 b.pace q hq
        exact hsp (List.mem_map.mpr ⟨p, hp, by rw [← hqp, h]⟩)
      by_cases howned : b.playlist.owner = some dstOwner
      · -- the processed playlist is still owned: the second run matches it
        have hfilter_no : (b.playlist :: rr.processed).filter
            (fun q => !decide (q.owner = some dstOwner))
            = rr.processed.filter (fun q => !decide (q.owner = some dstOwner)) := by
          rw [List.filter_cons]
          simp [howned]
        have hfilter_o : (b.playlist :: rr.processed).filter
            (fun q => decide (q.owner = some dstOwner))
            = b.playlist :: rr.processed.filter
                (fun q => decide (q.owner = some dstOwner)) := by
          rw [List.filter_cons]
          simp [howned]
        have hpredsp : ((rr.processed.filter
            (fun q => !decide (q.owner = some dstOwner))).all
              (fun q => !decide (q.name = sp.name))) = true := by
          rw [List.all_eq_true]
          intro q hq
          obtain ⟨hqmem, _⟩ := List.mem_filter.mp hq
          simp [hrest_names q hqmem]
        have hsps_eq : run2_input_sps dstOwner
            (sync_loop cmp f isYt1 likeAll1 L1 n1 (sp :: rest) dst pace1) (sp :: rest)
            = sp :: run2_input_sps dstOwner rr rest := by
          rw [run2_input_sps, hproc_eq]
          simp only [hfilter_no]
          rw [List.filter_cons, if_pos hpredsp, run2_input_sps]
        have hdst_eq : run2_input_dst dstOwner
            (sync_loop cmp f isYt1 likeAll1 L1 n1 (sp :: rest) dst pace1)
            = b.playlist :: run2_input_dst dstOwner rr := by
          rw [run2_input_dst, hproc_eq, hleft_eq]
          simp only [hfilter_o]
          rw [run2_input_dst, List.cons_append]
        rw [hsps_eq, hdst_eq, sync_loop, if_neg hskip]
        have hfind2 : find_remove_by_name sp.name
            (b.playlist :: run2_input_dst dstOwner rr)
            = (some b.playlist, run2_input_dst dstOwner rr) :=
          find_remove_head sp.name b.playlist _ hbname
        simp only [hfind2]
        obtain ⟨hplid, haddid, hlikeid⟩ := sync_body_idem cmp f hrefl
          isYt1 likeAll1 L1 pace1 isYt2 likeAll2 L2 pace2 sp.songs tgt
        obtain ⟨ihc, iha, ihl⟩ := sync_loop_idem cmp f hrefl isYt1 likeAll1 L1 n1
          isYt2 likeAll2 L2 n2 dstOwner rest fr.2 b.pace
          (sync_body cmp f isYt2 likeAll2 L2 sp.songs b.playlist pace2).pace hrest
        refine ⟨?_, ?_, ?_⟩
        · dsimp only
          rw [List.nil_append]
          exact ihc
        · intro a ha
          rcases List.mem_append.mp ha with hb2 | hrec
          · obtain ⟨batch, hbatch, heq⟩ := List.mem_map.mp hb2
            rw [← heq]
            exact haddid batch (by rw [hbdef] at hbatch; exact hbatch)
          · exact iha a hrec
        · intro l hl
          rcases List.mem_append.mp hl with hb2 | hrec
          · exact hlikeid l (by rw [hbdef] at hb2; exact hb2)
          · exact ihl l hrec
      · -- the processed playlist is not owned in the second run's snapshot:
        -- it is dropped and knocks out sp
        have hfilter_no : (b.playlist :: rr.processed).filter
            (fun q => !decide (q.owner = some dstOwner))
            = b.playlist :: rr.processed.filter
                (fun q => !decide (q.owner = some dstOwner)) := by
          rw [List.filter_cons]
          simp [howned]
        have hfilter_o : (b.playlist :: rr.processed).filter
            (fun q => decide (q.owner = some dstOwner))
            = rr.processed.filter (fun q => decide (q.owner = some dstOwner)) := by
          rw [List.filter_cons]
          simp [howned]
        have hsps_eq : run2_input_sps dstOwner
            (sync_loop cmp f isYt1 likeAll1 L1 n1 (sp :: rest) dst pace1) (sp :: rest)
            = run2_input_sps dstOwner rr rest := by
          rw [run2_input_sps, hproc_eq]
          simp only [hfilter_no]
          rw [List.filter_cons]
          have hpredsp : ((b.playlist :: rr.processed.filter
              (fun q => !decide (q.owner = some dstOwner))).all
                (fun q => !decide (q.name = sp.name))) = false := by
            rw [List.all_cons]
            simp [hbname]
          rw [hpredsp, if_neg (by simp), run2_input_sps]
          apply List.filter_congr
          intro p hp
          have hne : ¬ b.playlist.name = p.name := by
            rw [hbname]
            intro h
            exact hsp (List.mem_map.mpr ⟨p, hp, h.symm⟩)
          rw [List.all_cons]
          simp [hne]
        have hdst_eq : run2_input_dst dstOwner
            (sync_loop cmp f isYt1 likeAll1 L1 n1 (sp :: rest) dst pace1)
            = run2_input_dst dstOwner rr := by
          rw [run2_input_dst, hproc_eq, hleft_eq]
          simp only [hfilter_o]
          rw [run2_input_dst]
        rw [hsps_eq, hdst_eq]
        exact sync_loop_idem cmp f hrefl isYt1 likeAll1 L1 n1 isYt2 likeAll2 L2 n2
          dstOwner rest fr.2 b.pace pace2 hrest


/-- C1 (amended): with a reflexive `compare` and pairwise-distinct source
playlist names, running the sync orchestrator a second time against the
state left by the first run issues no `createPlaylist` call, and every
`addSongsToPlaylist` call it issues carries an empty batch and every
`addLikes` call an empty list: every source song is blocked either by the
pre-search membership check or by the post-search equivalence check on the
destination playlist's song list, so nothing is added — but an
`addSongsToPlaylist` call with an empty batch is still issued whenever some
song passes the pre-search check and is blocked only post-search, because
the submission guard tests the searched list, not the batch. -/
theorem run_twice_no_new_mutations (cmp : Song → Song → Bool)
    (f : Song → Option Song)
    (isYt1 likeAll1 : Bool) (L1 : List Song) (newOwner1 : Option String)
    (isYt2 likeAll2 : Bool) (L2 : List Song) (newOwner2 : Option String)
    (skip : List String) (dstOwner : String)
    (src dst : List Playlist) (pace1 pace2 : PacingState)
    (hrefl : ∀ s, cmp s s = true)
    (hsrc : (src.map Playlist.name).Nodup) :
    (synchronize_playlists cmp f isYt2 likeAll2 L2 newOwner2 skip dstOwner src
      (state_after (synchronize_playlists cmp f isYt1 likeAll1 L1 newOwner1 skip
        dstOwner src dst pace1)) pace2).creates = [] ∧
    (∀ a ∈ (synchronize_playlists cmp f isYt2 likeAll2 L2 newOwner2 skip dstOwner src
      (state_after (synchronize_playlists cmp f isYt1 likeAll1 L1 newOwner1 skip
        dstOwner src dst pace1)) pace2).adds, a.2 = []) ∧
    (∀ l ∈ (synchronize_playlists cmp f isYt2 likeAll2 L2 newOwner2 skip dstOwner src
      (state_after (synchronize_playlists cmp f isYt1 likeAll1 L1 newOwner1 skip
        dstOwner src dst pace1)) pace2).likeBatches, l = []) := by
  have hnodup1 : ((filter_skip_names skip src).map Playlist.name).Nodup :=
    ((List.filter_sublist src).map Playlist.name).nodup hsrc
  have hnodup2 : ((owner_filter dstOwner dst (filter_skip_names skip src)).2.1.map Playlist.name).Nodup :=
    ((owner_filter_src_sublist dstOwner dst (filter_skip_names skip src)).map Playlist.name).nodup hnodup1
  have hstate : state_after (synchronize_playlists cmp f isYt1 likeAll1 L1 newOwner1
      skip dstOwner src dst pace1) = ((sync_loop cmp f isYt1 likeAll1 L1 newOwner1 (owner_filter dstOwner dst (filter_skip_names skip src)).2.1 (owner_filter dstOwner dst (filter_skip_names skip src)).1 pace1).processed ++ (sync_loop cmp f isYt1 likeAll1 L1 newOwner1 (owner_filter dstOwner dst (filter_skip_names skip src)).2.1 (owner_filter dstOwner dst (filter_skip_names skip src)).1 pace1).dstLeftover ++ (dst.filter (fun d => !decide (d.owner = some dstOwner)))) := by
    rw [synchronize_playlists, state_after]
    dsimp only
    rw [owner_filter_dropped]
  have hkept : (owner_filter dstOwner ((sync_loop cmp f isYt1 likeAll1 L1 newOwner1 (owner_filter dstOwner dst (filter_skip_names skip src)).2.1 (owner_filter dstOwner dst (filter_skip_names skip src)).1 pace1).processed ++ (sync_loop cmp f isYt1 likeAll1 L1 newOwner1 (owner_filter dstOwner dst (filter_skip_names skip src)).2.1 (owner_filter dstOwner dst (filter_skip_names skip src)).1 pace1).dstLeftover ++ (dst.filter (fun d => !decide (d.owner = some dstOwner)))) (filter_skip_names skip src)).1
      = run2_input_dst dstOwner (sync_loop cmp f isYt1 likeAll1 L1 newOwner1 (owner_filter dstOwner dst (filter_skip_names skip src)).2.1 (owner_filter dstOwner dst (filter_skip_names skip src)).1 pace1) := by
    rw [owner_filter_kept, List.filter_append, List.filter_append]
    have hl : (sync_loop cmp f isYt1 likeAll1 L1 newOwner1 (owner_filter dstOwner dst (filter_skip_names skip src)).2.1 (owner_filter dstOwner dst (filter_skip_names skip src)).1 pace1).dstLeftover.filter
        (fun d => decide (d.owner = some dstOwner)) = (sync_loop cmp f isYt1 likeAll1 L1 newOwner1 (owner_filter dstOwner dst (filter_skip_names skip src)).2.1 (owner_filter dstOwner dst (filter_skip_names skip src)).1 pace1).dstLeftover := by
      apply List.filter_eq_self.mpr
      intro q hq
      have hq2 : q ∈ (owner_filter dstOwner dst (filter_skip_names skip src)).1 :=
        (sync_loop_leftover_sublist cmp f isYt1 likeAll1 L1 newOwner1
          (owner_filter dstOwner dst (filter_skip_names skip src)).2.1 (owner_filter dstOwner dst (filter_skip_names skip src)).1 pace1).mem hq
      rw [owner_filter_kept] at hq2
      exact (List.mem_filter.mp hq2).2
    have hd : (dst.filter (fun d => !decide (d.owner = some dstOwner))).filter (fun d => decide (d.owner = some dstOwner)) = [] := by
      rw [List.filter_eq_nil_iff]
      intro q hq
      have := (List.mem_filter.mp hq).2
      simp only [Bool.not_eq_true'] at this
      simp [this]
    rw [hl, hd, List.append_nil, run2_input_dst]
  have hsps : (owner_filter dstOwner ((sync_loop cmp f isYt1 likeAll1 L1 newOwner1 (owner_filter dstOwner dst (filter_skip_names skip src)).2.1 (owner_filter dstOwner dst (filter_skip_names skip src)).1 pace1).processed ++ (sync_loop cmp f isYt1 likeAll1 L1 newOwner1 (owner_filter dstOwner dst (filter_skip_names skip src)).2.1 (owner_filter dstOwner dst (filter_skip_names skip src)).1 pace1).dstLeftover ++ (dst.filter (fun d => !decide (d.owner = some dstOwner)))) (filter_skip_names skip src)).2.1
      = run2_input_sps dstOwner (sync_loop cmp f isYt1 likeAll1 L1 newOwner1 (owner_filter dstOwner dst (filter_skip_names skip src)).2.1 (owner_filter dstOwner dst (filter_skip_names skip src)).1 pace1) (owner_filter dstOwner dst (filter_skip_names skip src)).2.1 := by
    have hLown : ∀ q ∈ (sync_loop cmp f isYt1 likeAll1 L1 newOwner1 (owner_filter dstOwner dst (filter_skip_names skip src)).2.1 (owner_filter dstOwner dst (filter_skip_names skip src)).1 pace1).dstLeftover,
        decide (q.owner = some dstOwner) = true := by
      intro q hq
      have hq2 : q ∈ (owner_filter dstOwner dst (filter_skip_names skip src)).1 :=
        (sync_loop_leftover_sublist cmp f isYt1 likeAll1 L1 newOwner1
          (owner_filter dstOwner dst (filter_skip_names skip src)).2.1 (owner_filter dstOwner dst (filter_skip_names skip src)).1 pace1).mem hq
      rw [owner_filter_kept] at hq2
      exact (List.mem_filter.mp hq2).2
    set R := (sync_loop cmp f isYt1 likeAll1 L1 newOwner1 (owner_filter dstOwner dst (filter_skip_names skip src)).2.1 (owner_filter dstOwner dst (filter_skip_names skip src)).1 pace1) with hRdef
    rw [owner_filter_src_eq dstOwner _ _ hnodup1, run2_input_sps,
      owner_filter_src_eq dstOwner dst _ hnodup1, List.filter_filter]
    apply List.filter_congr
    intro p _
    rw [List.all_append, List.all_append]
    have hleftall : R.dstLeftover.all
        (fun d => decide (d.owner = some dstOwner) || !decide (d.name = p.name))
        = true := by
      rw [List.all_eq_true]
      intro q hq
      have := hLown q hq
      simp [this]
    rw [hleftall, all_owned_or dstOwner _ R.processed,
      all_owned_or dstOwner _ (dst.filter (fun d => !decide (d.owner = some dstOwner))), all_owned_or dstOwner _ dst]
    have hdd : (dst.filter (fun d => !decide (d.owner = some dstOwner))).filter (fun d => !decide (d.owner = some dstOwner))
        = (dst.filter (fun d => !decide (d.owner = some dstOwner))) := by
      apply List.filter_eq_self.mpr
      intro q hq
      exact (List.mem_filter.mp hq).2
    rw [hdd]
    cases ha : ((dst.filter (fun d => !decide (d.owner = some dstOwner))).all (fun d => !decide (d.name = p.name))) <;>
      cases hb : ((R.processed.filter
        (fun q => !decide (q.owner = some dstOwner))).all
          (fun q => !decide (q.name = p.name))) <;>
      simp [ha, hb]
  rw [hstate, synchronize_playlists]
  dsimp only
  rw [hkept, hsps]
  exact sync_loop_idem cmp f hrefl isYt1 likeAll1 L1 newOwner1 isYt2 likeAll2 L2
    newOwner2 dstOwner (owner_filter dstOwner dst (filter_skip_names skip src)).2.1 (owner_filter dstOwner dst (filter_skip_names skip src)).1 pace1 pace2 hnodup2


/-- C1 (counterexample): the second run does issue a mutation call. With a
destination playlist "P" already containing the song the search resolves the
source song to (but with the source song itself not judged equivalent to it,
the "no-ISRC discrepancy" the code's own post-search check exists for), each
run — including the second, against the state the first left — passes the
pre-search check, searches, discards the found song post-search, and then
calls `addSongsToPlaylist` with an empty batch because the submission guard
tests the searched list rather than the batch. -/
theorem second_run_issues_empty_add :
    (synchronize_playlists cmpEq exSearch false false [] none [] "u" [exC1Src]
      [exC1Dst] initial_pacing_state).adds = [("P", [])] ∧
    (synchronize_playlists cmpEq exSearch false false [] none [] "u" [exC1Src]
      (state_after (synchronize_playlists cmpEq exSearch false false [] none []
        "u" [exC1Src] [exC1Dst] initial_pacing_state))
      initial_pacing_state).adds = [("P", [])] ∧
    (synchronize_playlists cmpEq exSearch false false [] none [] "u" [exC1Src]
      (state_after (synchronize_playlists cmpEq exSearch false false [] none []
        "u" [exC1Src] [exC1Dst] initial_pacing_state))
      initial_pacing_state).adds ≠ [] := by
  refine ⟨rfl, rfl, by decide⟩

/-- C1 witness: the amended statement evaluated on the concrete two-run
example — the second run creates nothing and its one add call carries the
empty batch. -/
theorem run_twice_no_new_mutations_witness :
    (synchronize_playlists cmpEq exSearch false false [] none [] "u" [exC1Src]
      (state_after (synchronize_playlists cmpEq exSearch false false [] none []
        "u" [exC1Src] [exC1Dst] initial_pacing_state))
      initial_pacing_state).creates = [] ∧
    ∀ a ∈ (synchronize_playlists cmpEq exSearch false false [] none [] "u"
      [exC1Src]
      (state_after (synchronize_playlists cmpEq exSearch false false [] none []
        "u" [exC1Src] [exC1Dst] initial_pacing_state))
      initial_pacing_state).adds, a.2 = [] := by
  have h := run_twice_no_new_mutations cmpEq exSearch false false [] none
    false false [] none [] "u" [exC1Src] [exC1Dst] initial_pacing_state
    initial_pacing_state (fun s => by simp [cmpEq]) (by decide)
  exact ⟨h.1, h.2.1⟩

end SyncDisBoi
